import Mathlib

/-!
# gotoproduction: the dog record service and its request layer

A shallow embedding of `dogservice.go` (the record service), of
`cmd/http/dogs.go` and `cmd/http/routes.go` (the instrumented request layer)
and of `cmd/dogs.go` (the uninstrumented request layer), followed by the
properties of the specification that were checked against them.

The document store, the JSON codec and the HTTP response writer are
collaborators of the program, not part of it.  They are modelled by their
documented behaviour:

* the store holds the documents of the collection `dogs`; the client refuses a
  path that is not a document path before any round trip; a round trip either
  fails with an error supplied by the environment (`Env.fault`: connectivity,
  quota, an identifier the server refuses, ...) or is answered from the stored
  documents;
* the key generator draws twenty characters of the alphanumeric alphabet from
  the entropy supplied by the environment;
* the response writer keeps the first status code written and accumulates the
  body.

Logging and tracing calls have no effect on any result and are left out.
-/

namespace Gotoproduction

/-! ## Store collaborator -/

/-- The gRPC status codes (`google.golang.org/grpc/codes`). -/
inductive Code
  | OK | Canceled | Unknown | InvalidArgument | DeadlineExceeded | NotFound
  | AlreadyExists | PermissionDenied | ResourceExhausted | FailedPrecondition
  | Aborted | OutOfRange | Unimplemented | Internal | Unavailable | DataLoss
  | Unauthenticated
  deriving DecidableEq, Repr

/-- An error produced by the store client: either a gRPC status error carrying
a code, or an error raised inside the client with no status attached. -/
inductive StoreError
  | rpc (code : Code) (msg : String)
  | client (msg : String)
  deriving DecidableEq, Repr

/-- The function `status.Code`: `OK` for a nil error, the code of a status error,
`Unknown` for any other error. -/
def statusCode : Option StoreError → Code
  | none => Code.OK
  | some (StoreError.rpc c _) => c
  | some (StoreError.client _) => Code.Unknown

/-- A timestamp in UTC, by its civil components.  Store timestamps lie between
the years 0001 and 9999. -/
structure Time where
  year : Fin 10000
  month : Nat
  day : Nat
  hour : Nat
  minute : Nat
  second : Nat
  nano : Nat
  deriving DecidableEq, Repr

/-- The zero value of `time.Time`: January 1, year 1, 00:00:00 UTC. -/
def Time.zero : Time := ⟨1, 1, 1, 0, 0, 0, 0⟩

/-- A field value of a stored document. -/
inductive Value
  | null
  | bool (b : Bool)
  | int (i : Int)
  | string (s : String)
  | timestamp (t : Time)
  deriving DecidableEq, Repr

/-- The name of a value's kind, as the client prints it in a decoding error. -/
def Value.kind : Value → String
  | Value.null => "null"
  | Value.bool _ => "bool"
  | Value.int _ => "int"
  | Value.string _ => "string"
  | Value.timestamp _ => "timestamp"

/-- A stored document, by the five fields that the `firestore` tags of `Dog`
name.  A field may be absent, and may hold a value of any kind. -/
structure Document where
  name : Option Value
  age : Option Value
  type : Option Value
  id : Option Value
  created_timestamp : Option Value
  deriving DecidableEq, Repr

/-- The store: the documents of the collection `dogs`, each under its document
ID, in the order in which the store returns them. -/
structure Firestore where
  dogs : List (String × Document)
  deriving DecidableEq, Repr

/-- What the environment contributes to one service call: the failure of the
store round trip, when there is one; the bytes the key generator draws; the
store clock at the time of a write. -/
structure Env where
  fault : Option StoreError
  entropy : List Nat
  now : Time
  deriving DecidableEq, Repr

/-! ## `dogservice.go` -/

def dogCollectionName : String := "dogs"

/-- Go error values returned by the service: the sentinel `ErrDogNotFound`, or
the result of `fmt.Errorf(format, args..., err)` wrapping a store error with
`%w`.  Equality of Go errors is identity, so a wrapped error is never equal to
the sentinel. -/
inductive Error
  | ErrDogNotFound
  | Errorf (format : String) (args : List String) (cause : StoreError)
  deriving DecidableEq, Repr

/-- The error a wrapped error unwraps to (`errors.Unwrap`). -/
def Error.unwrap : Error → Option StoreError
  | Error.ErrDogNotFound => none
  | Error.Errorf _ _ cause => some cause

structure Dog where
  Name : String
  Age : Int
  Typ : String
  ID : String
  CreatedTimestamp : Time
  deriving DecidableEq, Repr

structure CreateDogRequest where
  Name : String
  Age : Int
  Typ : String
  deriving DecidableEq, Repr

/-- The zero value `&Dog{}`. -/
def Dog.zero : Dog := ⟨"", 0, "", "", Time.zero⟩

/-- The path of the document with the given ID in the collection `dogs`. -/
def docPath (id : String) : String := dogCollectionName ++ "/" ++ id

/-- The elements of a path: the text between its slashes. -/
def splitSlash : List Char → List (List Char)
  | [] => [[]]
  | c :: cs =>
    if c = '/' then [] :: splitSlash cs
    else
      match splitSlash cs with
      | elem :: rest => (c :: elem) :: rest
      | [] => [[c]]

/-- Whether `db.Doc(path)` is a document reference: the path splits at its
slashes into an even number of IDs, none of them empty.  For any other path
`db.Doc` returns nil. -/
def isDocPath (path : String) : Bool :=
  (splitSlash path.toList).all (fun id => id != []) &&
    (splitSlash path.toList).length % 2 == 0

/-- `db.Doc(path).Get(ctx)`: on the nil reference of a path that is not a document
path the client fails at once, with an error that carries no status; otherwise
the round trip fails with the environment's error, or the store answers with the
document stored at the path, or with a `NotFound` status when there is none. -/
def Firestore.Get (db : Firestore) (fault : Option StoreError) (path : String) :
    Except StoreError Document :=
  if isDocPath path then
    match fault with
    | some e => Except.error e
    | none =>
      match db.dogs.find? (fun kv => docPath kv.1 == path) with
      | some kv => Except.ok kv.2
      | none => Except.error (StoreError.rpc Code.NotFound (path ++ " not found"))
  else Except.error (StoreError.client "firestore: nil DocumentRef")

/-- `db.Collection("dogs").Where("type", "==", dogType).Documents(ctx).GetAll()`:
the documents whose field `type` is the string `dogType`, compared exactly. -/
def Firestore.WhereType (db : Firestore) (fault : Option StoreError) (dogType : String) :
    Except StoreError (List Document) :=
  match fault with
  | some e => Except.error e
  | none =>
    Except.ok ((db.dogs.filter (fun kv => kv.2.type == some (Value.string dogType))).map
      Prod.snd)

/-- Decoding of a stored value into a Go `string` field: an absent or null
value leaves the field as it is, a string sets it, any other kind is an error. -/
def setString (field : String) (v : Option Value) (cur : String) : Except StoreError String :=
  match v with
  | none => Except.ok cur
  | some Value.null => Except.ok cur
  | some (Value.string s) => Except.ok s
  | some w => Except.error (StoreError.client
      ("gotoproduction.Dog." ++ field ++ ": firestore: cannot set type string to " ++ w.kind))

/-- Decoding of a stored value into a Go `int` field. -/
def setInt (field : String) (v : Option Value) (cur : Int) : Except StoreError Int :=
  match v with
  | none => Except.ok cur
  | some Value.null => Except.ok cur
  | some (Value.int i) => Except.ok i
  | some w => Except.error (StoreError.client
      ("gotoproduction.Dog." ++ field ++ ": firestore: cannot set type int to " ++ w.kind))

/-- Decoding of a stored value into a `time.Time` field. -/
def setTime (field : String) (v : Option Value) (cur : Time) : Except StoreError Time :=
  match v with
  | none => Except.ok cur
  | some Value.null => Except.ok cur
  | some (Value.timestamp t) => Except.ok t
  | some w => Except.error (StoreError.client
      ("gotoproduction.Dog." ++ field ++ ": firestore: cannot set type time.Time to " ++ w.kind))

/-- `snapshot.DataTo(dog)`: fills the struct from the document, field by field,
and fails at the first field whose stored value has the wrong kind. -/
def Document.DataTo (d : Document) (dog : Dog) : Except StoreError Dog := do
  let name ← setString "Name" d.name dog.Name
  let age ← setInt "Age" d.age dog.Age
  let typ ← setString "Type" d.type dog.Typ
  let id ← setString "ID" d.id dog.ID
  let ts ← setTime "CreatedTimestamp" d.created_timestamp dog.CreatedTimestamp
  return ⟨name, age, typ, id, ts⟩

/-- The alphabet of generated document IDs. -/
def alphanum : List Char :=
  "ABCDEFGHIJKLMNOPQRSTUVWXYZabcdefghijklmnopqrstuvwxyz0123456789".toList

/-- The key generator of the store client: twenty characters of `alphanum`,
the i-th chosen by the i-th byte of entropy. -/
def uniqueID (entropy : List Nat) : String :=
  String.mk ((List.range 20).map (fun i => alphanum.getD (entropy.getD i 0 % 62) 'A'))

/-- The document written for a `Dog`: one field per `firestore` tag; the field
tagged `serverTimestamp` receives the store clock when the struct holds the zero
time. -/
def Dog.toDocument (dog : Dog) (now : Time) : Document :=
  { name := some (Value.string dog.Name)
    age := some (Value.int dog.Age)
    type := some (Value.string dog.Typ)
    id := some (Value.string dog.ID)
    created_timestamp :=
      some (Value.timestamp (if dog.CreatedTimestamp = Time.zero then now
        else dog.CreatedTimestamp)) }

/-- `doc.Create(ctx, dog)`: the round trip fails with the environment's error and
writes nothing, or the store refuses with `AlreadyExists` when the ID is taken,
or the document is added. -/
def Firestore.Create (db : Firestore) (fault : Option StoreError) (now : Time)
    (id : String) (dog : Dog) : Except StoreError Unit × Firestore :=
  match fault with
  | some e => (Except.error e, db)
  | none =>
    if db.dogs.any (fun kv => kv.1 == id) then
      (Except.error (StoreError.rpc Code.AlreadyExists (docPath id ++ " already exists")), db)
    else
      (Except.ok (), { dogs := db.dogs ++ [(id, dog.toDocument now)] })

/-- GetDogByID retrieves 1 dog by its id. -/
def GetDogByID (db : Firestore) (env : Env) (id : String) : Except Error Dog :=
  let dogPath := dogCollectionName ++ "/" ++ id
  match db.Get env.fault dogPath with
  | Except.error err =>
    if statusCode (some err) = Code.NotFound then
      Except.error Error.ErrDogNotFound
    else
      Except.error (Error.Errorf "ds.db.Doc(%q): %w" [dogPath] err)
  | Except.ok docRefSnap =>
    match docRefSnap.DataTo Dog.zero with
    | Except.error err => Except.error (Error.Errorf "docRefSnap.DataTo(): %w" [] err)
    | Except.ok dog => Except.ok dog

/-- The loop of `FindDogByType` over the snapshots: decode each one and append
it, returning at the first decoding error. -/
def decodeAll : List Document → List Dog → Except Error (List Dog)
  | [], dogs => Except.ok dogs
  | snapshot :: rest, dogs =>
    match snapshot.DataTo Dog.zero with
    | Except.error err => Except.error (Error.Errorf "snapshot.DataTo(): %w" [] err)
    | Except.ok dog => decodeAll rest (dogs ++ [dog])

/-- FindDogByType will return all the dogs by a given type. -/
def FindDogByType (db : Firestore) (env : Env) (dogType : String) : Except Error (List Dog) :=
  match db.WhereType env.fault dogType with
  | Except.error err => Except.error (Error.Errorf "ds.db.Collection(): %w" [] err)
  | Except.ok all => decodeAll all []

/-- CreateDog will create a new dog entry. -/
def CreateDog (db : Firestore) (env : Env) (request : CreateDogRequest) :
    Except Error String × Firestore :=
  let docID := uniqueID env.entropy
  let dog : Dog :=
    { Name := request.Name, Age := request.Age, Typ := request.Typ, ID := docID,
      CreatedTimestamp := Time.zero }
  match db.Create env.fault env.now docID dog with
  | (Except.error err, db1) => (Except.error (Error.Errorf "doc.Create(): %w" [] err), db1)
  | (Except.ok _, db1) => (Except.ok docID, db1)

/-! ## JSON codec (`encoding/json`) -/

/-- A parsed JSON value.  An integer literal is kept by its value, any other
number literal (with a fraction or an exponent) by its text. -/
inductive JSON
  | null
  | bool (b : Bool)
  | int (i : Int)
  | float (lit : String)
  | string (s : String)
  | array (items : List JSON)
  | object (members : List (String × JSON))

/-- What `json.NewDecoder(r.Body)` finds in a request body: no complete JSON
value (an empty body, a syntax error, a failed read), or a value. -/
inductive Body
  | invalid (err : String)
  | value (v : JSON)

/-- The name of a JSON value's kind, as `UnmarshalTypeError` prints it. -/
def JSON.kind : JSON → String
  | JSON.null => "null"
  | JSON.bool _ => "bool"
  | JSON.int _ => "number"
  | JSON.float _ => "number"
  | JSON.string _ => "string"
  | JSON.array _ => "array"
  | JSON.object _ => "object"

/-- Decoding of a JSON value into a Go `string` field: a string sets it, `null`
leaves it, any other kind is skipped and reported. -/
def unmarshalString (field : String) (v : JSON) (cur : String) : String × Option String :=
  match v with
  | JSON.string s => (s, none)
  | JSON.null => (cur, none)
  | w => (cur, some ("json: cannot unmarshal " ++ w.kind ++ " into Go struct field " ++ field
      ++ " of type string"))

/-- Decoding of a JSON value into a Go `int` field: an integer literal within
the 64-bit range sets it, `null` leaves it, anything else is skipped and
reported. -/
def unmarshalInt (field : String) (v : JSON) (cur : Int) : Int × Option String :=
  match v with
  | JSON.int i =>
    if -(2 : Int) ^ 63 ≤ i ∧ i < (2 : Int) ^ 63 then (i, none)
    else (cur, some ("json: cannot unmarshal number into Go struct field " ++ field
      ++ " of type int"))
  | JSON.null => (cur, none)
  | w => (cur, some ("json: cannot unmarshal " ++ w.kind ++ " into Go struct field " ++ field
      ++ " of type int"))

/-- The first error met is the one reported. -/
def saveError (saved new : Option String) : Option String :=
  match saved with
  | some e => some e
  | none => new

/-- The key of a member with its ASCII letters in lower case: the decoder selects
a field by the key without regard to letter case. -/
def foldKey (key : String) : String := String.mk (key.toList.map Char.toLower)

/-- Decoding of one member of a JSON object into a struct with the fields
`name`, `age` and `type`: the key selects a field without regard to letter case,
a key that selects none is ignored. -/
def unmarshalMember (st : CreateDogRequest × Option String) (m : String × JSON) :
    CreateDogRequest × Option String :=
  let key := foldKey m.1
  if key = "name" then
    let r := unmarshalString "name" m.2 st.1.Name
    ({ st.1 with Name := r.1 }, saveError st.2 r.2)
  else if key = "age" then
    let r := unmarshalInt "age" m.2 st.1.Age
    ({ st.1 with Age := r.1 }, saveError st.2 r.2)
  else if key = "type" then
    let r := unmarshalString "type" m.2 st.1.Typ
    ({ st.1 with Typ := r.1 }, saveError st.2 r.2)
  else st

/-- `json.NewDecoder(body).Decode(v)` for `v` a pointer to a struct with the
JSON fields `name`, `age`, `type`: the struct as the decoder leaves it, and the
error it returns.  A type mismatch in one member does not stop the decoding of
the others. -/
def jsonDecode (body : Body) (v : CreateDogRequest) : CreateDogRequest × Option String :=
  match body with
  | Body.invalid err => (v, some err)
  | Body.value JSON.null => (v, none)
  | Body.value (JSON.object members) => members.foldl unmarshalMember (v, none)
  | Body.value w => (v, some ("json: cannot unmarshal " ++ w.kind
      ++ " into Go value of type createDogRequest"))

/-- Lower-case hexadecimal digit. -/
def hexDigit (n : Nat) : Char := "0123456789abcdef".toList.getD n '0'

/-- The encoding of one character inside a JSON string, with HTML escaping on as
`json.Encoder` has it by default.  Backspace and form feed are written as
`\u0008` and `\u000c`, as the Go releases before 1.22 write them. -/
def jsonEscape (c : Char) : String :=
  if c = '"' then "\\\""
  else if c = '\\' then "\\\\"
  else if c = '\n' then "\\n"
  else if c = '\r' then "\\r"
  else if c = '\t' then "\\t"
  else if c.toNat < 32 ∨ c = '<' ∨ c = '>' ∨ c = '&' then
    "\\u00" ++ String.mk [hexDigit (c.toNat / 16), hexDigit (c.toNat % 16)]
  else if c.toNat = 8232 then "\\u2028"
  else if c.toNat = 8233 then "\\u2029"
  else String.mk [c]

/-- The JSON encoding of a Go string. -/
def jsonString (s : String) : String :=
  "\"" ++ String.join (s.toList.map jsonEscape) ++ "\""

/-- The decimal text of a Go `int`. -/
def jsonInt (i : Int) : String :=
  if i < 0 then "-" ++ Nat.repr i.natAbs else Nat.repr i.natAbs

/-- Decimal text of `n`, padded with zeros on the left to the given width. -/
def zeroPad (width n : Nat) : String :=
  String.mk (List.replicate (width - (Nat.repr n).length) '0') ++ Nat.repr n

/-- The fraction of a second in RFC 3339 with nanosecond precision: absent when
zero, otherwise nine digits with the trailing zeros removed. -/
def fraction (nano : Nat) : String :=
  if nano = 0 then ""
  else "." ++ String.mk ((zeroPad 9 nano).toList.reverse.dropWhile (fun c => c == '0')).reverse

/-- The method `Time.MarshalJSON`: the time in RFC 3339 with nanoseconds, quoted. -/
def Time.marshalJSON (t : Time) : String :=
  "\"" ++ zeroPad 4 t.year.val ++ "-" ++ zeroPad 2 t.month ++ "-" ++ zeroPad 2 t.day ++ "T"
    ++ zeroPad 2 t.hour ++ ":" ++ zeroPad 2 t.minute ++ ":" ++ zeroPad 2 t.second
    ++ fraction t.nano ++ "Z\""

/-- The JSON encoding of a `Dog`, by its `json` tags in the order of the struct's
fields. -/
def Dog.marshalJSON (d : Dog) : String :=
  "\x7b\"name\":" ++ jsonString d.Name ++ ",\"age\":" ++ jsonInt d.Age
    ++ ",\"type\":" ++ jsonString d.Typ ++ ",\"id\":" ++ jsonString d.ID
    ++ ",\"created_timestamp\":" ++ d.CreatedTimestamp.marshalJSON ++ "\x7d"

/-- The JSON encoding of a `[]*Dog`.  The only slice of dogs this program
encodes is the result of `FindDogByType`, which is the nil slice when it holds
no dog: it is written `null`. -/
def marshalDogs (dogs : List Dog) : String :=
  match dogs with
  | [] => "null"
  | _ => "[" ++ String.intercalate "," (dogs.map Dog.marshalJSON) ++ "]"

/-- The values the handlers pass to `respond` as `data`: a `*Dog`, a
`*DogTypesResponse`, a `*createDogResponse`. -/
inductive Payload
  | dog (d : Dog)
  | DogTypesResponse (Dogs : List Dog)
  | createDogResponse (DogID : String)
  deriving DecidableEq, Repr

/-- The function `json.Marshal` on the payloads. -/
def Payload.marshal : Payload → Except String String
  | Payload.dog d => Except.ok d.marshalJSON
  | Payload.DogTypesResponse dogs => Except.ok ("\x7b\"dogs\":" ++ marshalDogs dogs ++ "\x7d")
  | Payload.createDogResponse dogID =>
    Except.ok ("\x7b\"dog_id\":" ++ jsonString dogID ++ "\x7d")

/-! ## HTTP collaborators (`net/http`, `gorilla/mux`) -/

def StatusOK : Nat := 200
def StatusBadRequest : Nat := 400
def StatusNotFound : Nat := 404
def StatusInternalServerError : Nat := 500

/-- An `http.ResponseWriter`: the header map the handler edits, whether the
status line has been written, the status code and the headers that went out with
it, and the body written so far. -/
structure ResponseWriter where
  header : List (String × String)
  wroteHeader : Bool
  code : Nat
  sent : List (String × String)
  body : String
  deriving DecidableEq, Repr

/-- A writer nothing has been written to. -/
def ResponseWriter.fresh : ResponseWriter := ⟨[], false, 0, [], ""⟩

/-- `w.Header().Set(key, value)`. -/
def ResponseWriter.setHeader (w : ResponseWriter) (key value : String) : ResponseWriter :=
  { w with header := w.header.filter (fun kv => kv.1 != key) ++ [(key, value)] }

/-- `w.WriteHeader(status)`: the first call fixes the status code and the
headers; a later call is ignored. -/
def ResponseWriter.WriteHeader (w : ResponseWriter) (status : Nat) : ResponseWriter :=
  if w.wroteHeader then w
  else { w with wroteHeader := true, code := status, sent := w.header }

/-- `w.Write(data)`: writes the status line with `200 OK` if none was written,
then adds to the body. -/
def ResponseWriter.Write (w : ResponseWriter) (data : String) : ResponseWriter :=
  let w1 := if w.wroteHeader then w else w.WriteHeader StatusOK
  { w1 with body := w1.body ++ data }

/-- The status code the client receives. -/
def ResponseWriter.status (w : ResponseWriter) : Nat :=
  if w.wroteHeader then w.code else StatusOK

/-- `http.Error(w, text, code)`. -/
def httpError (w : ResponseWriter) (text : String) (code : Nat) : ResponseWriter :=
  (((w.setHeader "Content-Type" "text/plain; charset=utf-8").setHeader
    "X-Content-Type-Options" "nosniff").WriteHeader code).Write (text ++ "\n")

/-- `json.NewEncoder(w).Encode(data)`: the encoding followed by a newline is
written to `w`; when the value cannot be encoded nothing is written. -/
def jsonEncode (w : ResponseWriter) (data : Payload) : ResponseWriter × Option String :=
  match data.marshal with
  | Except.ok text => (w.Write (text ++ "\n"), none)
  | Except.error err => (w, some err)

/-- An HTTP request as the handlers read it: the route variables (`mux.Vars`),
the query parameters in the order of the URL (`r.URL.Query()`), the body. -/
structure Request where
  vars : List (String × String)
  query : List (String × String)
  body : Body

/-- `query.Get(key)`: the first value of the key, or the empty string. -/
def queryGet (query : List (String × String)) (key : String) : String :=
  match query.lookup key with
  | some v => v
  | none => ""

/-- A call a handler makes to the record service. -/
inductive Call
  | GetDogByID (id : String)
  | FindDogByType (dogType : String)
  | CreateDog (request : CreateDogRequest)
  deriving DecidableEq, Repr

/-- What serving a request leaves behind: the response writer, the store, and
the calls made to the record service, in order. -/
structure Served where
  w : ResponseWriter
  db : Firestore
  calls : List Call
  deriving DecidableEq, Repr

/-! ## `cmd/http/routes.go` and `cmd/http/dogs.go`: the instrumented request layer -/

namespace Http

/-- The method `server.respond`.  `data` is `none` for the nil interface.  The
header key is written as `Header.Set` canonicalises it. -/
def respond (w : ResponseWriter) (data : Option Payload) (status : Nat) : ResponseWriter :=
  match data with
  | some d =>
    let w1 := (w.setHeader "Content-Type" "application/json").WriteHeader status
    match jsonEncode w1 d with
    | (w2, some _) => httpError w2 "Internal Server Error" StatusInternalServerError
    | (w2, none) => w2
  | none => w.WriteHeader status

/-- The method `server.decode`. -/
def decode (r : Request) (v : CreateDogRequest) : CreateDogRequest × Option String :=
  jsonDecode r.body v

/-- The handler of `GET /dogs/{dogID}`. -/
def handleGetDog (db : Firestore) (env : Env) (w : ResponseWriter) (r : Request) : Served :=
  match r.vars.lookup "dogID" with
  | none => ⟨respond w none StatusBadRequest, db, []⟩
  | some dogID =>
    match GetDogByID db env dogID with
    | Except.error err =>
      if err = Error.ErrDogNotFound then
        ⟨respond w none StatusNotFound, db, [Call.GetDogByID dogID]⟩
      else
        ⟨respond w none StatusInternalServerError, db, [Call.GetDogByID dogID]⟩
    | Except.ok dog => ⟨respond w (some (Payload.dog dog)) StatusOK, db, [Call.GetDogByID dogID]⟩

/-- The handler of `GET /dogs/find`. -/
def handleFindDog (db : Firestore) (env : Env) (w : ResponseWriter) (r : Request) : Served :=
  let dogType := queryGet r.query "type"
  if dogType = "" then
    ⟨respond w none StatusNotFound, db, []⟩
  else
    match FindDogByType db env dogType with
    | Except.error _ =>
      ⟨respond w none StatusInternalServerError, db, [Call.FindDogByType dogType]⟩
    | Except.ok byType =>
      ⟨respond w (some (Payload.DogTypesResponse byType)) StatusOK, db,
        [Call.FindDogByType dogType]⟩

/-- The handler of `POST /dogs`.  After a failed decode the handler responds
with status 400 and goes on: that branch has no `return`. -/
def handleCreateDog (db : Firestore) (env : Env) (w : ResponseWriter) (r : Request) : Served :=
  let decoded := decode r ⟨"", 0, ""⟩
  let request := decoded.1
  let w1 := if decoded.2 ≠ none then respond w none StatusBadRequest else w
  if request.Name = "" ∨ request.Typ = "" then
    ⟨respond w1 none StatusBadRequest, db, []⟩
  else
    let created : CreateDogRequest :=
      { Name := request.Name, Age := request.Age, Typ := request.Typ }
    match CreateDog db env created with
    | (Except.error _, db1) =>
      ⟨respond w1 none StatusInternalServerError, db1, [Call.CreateDog created]⟩
    | (Except.ok dogID, db1) =>
      ⟨respond w1 (some (Payload.createDogResponse dogID)) StatusOK, db1,
        [Call.CreateDog created]⟩

end Http

/-! ## `cmd/routes.go` and `cmd/dogs.go`: the uninstrumented request layer -/

namespace Cmd

/-- The method `server.respond`. -/
def respond (w : ResponseWriter) (data : Option Payload) (status : Nat) : ResponseWriter :=
  match data with
  | some d =>
    let w1 := (w.setHeader "Content-Type" "application/json").WriteHeader status
    match jsonEncode w1 d with
    | (w2, some _) => httpError w2 "Internal Server Error" StatusInternalServerError
    | (w2, none) => w2
  | none => w.WriteHeader status

/-- The method `server.decode`. -/
def decode (r : Request) (v : CreateDogRequest) : CreateDogRequest × Option String :=
  jsonDecode r.body v

/-- The handler of `GET /dogs/{dogID}`. -/
def handleGetDog (db : Firestore) (env : Env) (w : ResponseWriter) (r : Request) : Served :=
  match r.vars.lookup "dogID" with
  | none => ⟨respond w none StatusBadRequest, db, []⟩
  | some dogID =>
    match GetDogByID db env dogID with
    | Except.error err =>
      if err = Error.ErrDogNotFound then
        ⟨respond w none StatusNotFound, db, [Call.GetDogByID dogID]⟩
      else
        ⟨respond w none StatusInternalServerError, db, [Call.GetDogByID dogID]⟩
    | Except.ok dog => ⟨respond w (some (Payload.dog dog)) StatusOK, db, [Call.GetDogByID dogID]⟩

/-- The handler of `GET /dogs/find`. -/
def handleFindDog (db : Firestore) (env : Env) (w : ResponseWriter) (r : Request) : Served :=
  let dogType := queryGet r.query "type"
  if dogType = "" then
    ⟨respond w none StatusNotFound, db, []⟩
  else
    match FindDogByType db env dogType with
    | Except.error _ =>
      ⟨respond w none StatusInternalServerError, db, [Call.FindDogByType dogType]⟩
    | Except.ok byType =>
      ⟨respond w (some (Payload.DogTypesResponse byType)) StatusOK, db,
        [Call.FindDogByType dogType]⟩

/-- The handler of `POST /dogs`: the request is decoded into the service's own
`CreateDogRequest` and that value is passed on.  As in the instrumented layer,
the branch taken after a failed decode has no `return`. -/
def handleCreateDog (db : Firestore) (env : Env) (w : ResponseWriter) (r : Request) : Served :=
  let decoded := decode r ⟨"", 0, ""⟩
  let request := decoded.1
  let w1 := if decoded.2 ≠ none then respond w none StatusBadRequest else w
  if request.Name = "" ∨ request.Typ = "" then
    ⟨respond w1 none StatusBadRequest, db, []⟩
  else
    match CreateDog db env request with
    | (Except.error _, db1) =>
      ⟨respond w1 none StatusInternalServerError, db1, [Call.CreateDog request]⟩
    | (Except.ok dogID, db1) =>
      ⟨respond w1 (some (Payload.createDogResponse dogID)) StatusOK, db1,
        [Call.CreateDog request]⟩

end Cmd

/-! ## Sample data, after the tests -/

/-- The request of the tests: Oscar, aged 1, a Golden Doodle. -/
def oscar : CreateDogRequest := ⟨"Oscar", 1, "Golden Doodle"⟩

/-- A store with no documents, as after `ClearData`. -/
def emptyStore : Firestore := ⟨[]⟩

/-- An environment in which the store answers the round trip. -/
def calm : Env :=
  ⟨none, [14, 44, 28, 36, 43, 200, 7, 61, 62, 0, 1, 2, 3, 4, 5, 6, 7, 8, 9, 10],
    ⟨2021, 3, 14, 15, 9, 26, 535000000⟩⟩

/-- An environment in which the store is unreachable. -/
def outage : Env :=
  ⟨some (StoreError.rpc Code.Unavailable "connection refused"), calm.entropy, calm.now⟩

/-- The dog that a request becomes once created in the given environment. -/
def CreateDogRequest.toDog (request : CreateDogRequest) (env : Env) : Dog :=
  ⟨request.Name, request.Age, request.Typ, uniqueID env.entropy, env.now⟩

/-- A request body that is a JSON object with the given members. -/
def Body.ofMembers (members : List (String × JSON)) : Body := Body.value (JSON.object members)

/-- The body of the handler test: `name` and `type`, no `age`. -/
def oscarBody : Body :=
  Body.ofMembers [("name", JSON.string "Oscar"), ("type", JSON.string "Golden Doodle")]

/-- A body whose `age` is a string: the decoder reports the mismatch and still
fills in `name` and `type`. -/
def mistypedBody : Body :=
  Body.ofMembers [("name", JSON.string "Oscar"), ("age", JSON.string "one"),
    ("type", JSON.string "Golden Doodle")]

/-- The request `GET /dogs/<id>` as the router hands it to the get handler. -/
def getRequest (id : String) : Request := ⟨[("dogID", id)], [], Body.invalid "EOF"⟩

/-- The request `GET /dogs/find` with the given query parameters. -/
def findRequest (query : List (String × String)) : Request := ⟨[], query, Body.invalid "EOF"⟩

/-- The request `POST /dogs` with the given body. -/
def postRequest (body : Body) : Request := ⟨[], [], body⟩

/-- The store after the tests' `CreateDog` of Oscar into an empty store. -/
def oscarStore : Firestore := (CreateDog emptyStore calm oscar).2

/-- A run of `CreateDog` calls, each in its own environment: the store it leaves
and the identifiers returned by the calls that succeeded. -/
def createAll (db : Firestore) : List (Env × CreateDogRequest) → Firestore × List String
  | [] => (db, [])
  | call :: rest =>
    match CreateDog db call.1 call.2 with
    | (Except.ok id, db1) => ((createAll db1 rest).1, id :: (createAll db1 rest).2)
    | (Except.error _, db1) => createAll db1 rest

/-! ## Router (`gorilla/mux`), `routes.go` and `main.go` -/

/-- A request as the server receives it: the method, the path of the URL, the
query string as sent and as parsed, the body. -/
structure HttpRequest where
  method : String
  path : String
  rawQuery : String
  query : List (String × String)
  body : Body

/-- The elements `path.Clean` keeps of a rooted path, read from the left with
the elements kept so far (last one first): empty elements and `.` are dropped,
`..` drops the element before it, if any. -/
def cleanElems : List (List Char) → List (List Char) → List (List Char)
  | [], kept => kept.reverse
  | elem :: rest, kept =>
    if elem = [] ∨ elem = ['.'] then cleanElems rest kept
    else if elem = ['.', '.'] then cleanElems rest kept.tail
    else cleanElems rest (elem :: kept)

/-- The function `path.Clean` on a rooted path. -/
def pathClean (p : List Char) : List Char :=
  '/' :: List.intercalate ['/'] (cleanElems (splitSlash p) [])

/-- The router's `cleanPath`: the canonical form of a request path, with the
trailing slash kept. -/
def cleanPath (path : String) : String :=
  if path.toList = [] then "/"
  else
    let p := if path.toList.head? = some '/' then path.toList else '/' :: path.toList
    let np := pathClean p
    if p.getLast? = some '/' ∧ np ≠ ['/'] then String.mk (np ++ ['/']) else String.mk np

/-- A piece of a route template: literal text, or a variable in braces. -/
inductive Segment
  | lit (text : List Char)
  | var (name : String)
  deriving DecidableEq, Repr

/-- The pieces of a route template, read from the left: `name` holds the
variable name being read, if any, and `text` the literal text read so far, both
last character first. -/
def parseTemplate : List Char → Option (List Char) → List Char → List Segment
  | [], _, text => if text = [] then [] else [Segment.lit text.reverse]
  | c :: cs, none, text =>
    if c = Char.ofNat 123 then
      (if text = [] then [] else [Segment.lit text.reverse]) ++ parseTemplate cs (some []) []
    else parseTemplate cs none (c :: text)
  | c :: cs, some name, text =>
    if c = Char.ofNat 125 then Segment.var (String.mk name.reverse) :: parseTemplate cs none []
    else parseTemplate cs (some (c :: name)) text

/-- Matching of a path against the pieces of a template, anchored at both ends:
literal text matches itself, a variable matches the characters up to the next
slash, at least one, and is bound to them. -/
def matchSegments : List Segment → List Char → Option (List (String × String))
  | [], cs => if cs = [] then some [] else none
  | Segment.lit text :: rest, cs =>
    if text.isPrefixOf cs then matchSegments rest (cs.drop text.length) else none
  | Segment.var name :: rest, cs =>
    if cs.takeWhile (fun c => c != '/') = [] then none
    else
      match matchSegments rest (cs.dropWhile (fun c => c != '/')) with
      | some vars => some ((name, String.mk (cs.takeWhile (fun c => c != '/'))) :: vars)
      | none => none

/-- The handlers that `routes.go` registers. -/
inductive Handler
  | handleFindDog
  | handleGetDog
  | handleCreateDog
  deriving DecidableEq, Repr

/-- A registered route: `r.HandleFunc(template, handler).Methods(method)`. -/
structure Route where
  template : String
  method : String
  handler : Handler
  deriving DecidableEq, Repr

/-- What the router does with a request: redirect it to its canonical path, hand
it to a handler with the route variables, or answer that no route allows the
method or that no route matches. -/
inductive Routed
  | redirect (location : String)
  | handler (h : Handler) (vars : List (String × String))
  | methodNotAllowed
  | notFound
  deriving DecidableEq, Repr

/-- The router's search: the routes are tried in the order of registration, the
first whose template and method both match is taken; a route whose template
matches under another method is remembered. -/
def matchRoutes (pathPrefix : String) (routes : List Route) (method path : String)
    (mismatch : Bool) : Routed :=
  match routes with
  | [] => if mismatch then Routed.methodNotAllowed else Routed.notFound
  | route :: rest =>
    match matchSegments (parseTemplate (pathPrefix ++ route.template).toList none [])
        path.toList with
    | none => matchRoutes pathPrefix rest method path mismatch
    | some vars =>
      if route.method = method then Routed.handler route.handler vars
      else matchRoutes pathPrefix rest method path true

/-- The method `Router.ServeHTTP` up to the choice of the handler: a path that is
not in canonical form is redirected, any other is matched against the routes. -/
def routeRequest (pathPrefix : String) (routes : List Route) (req : HttpRequest) : Routed :=
  if cleanPath req.path ≠ req.path then
    Routed.redirect (cleanPath req.path ++ (if req.rawQuery = "" then "" else "?" ++ req.rawQuery))
  else matchRoutes pathPrefix routes req.method req.path false

def StatusMovedPermanently : Nat := 301
def StatusMethodNotAllowed : Nat := 405

namespace Http

/-- The method `server.routes`: the routes of the subrouter under `/dogs`, in the
order in which they are registered. -/
def routes : List Route :=
  [⟨"/find", "GET", Handler.handleFindDog⟩,
   ⟨"/\x7bdogID\x7d", "GET", Handler.handleGetDog⟩,
   ⟨"", "POST", Handler.handleCreateDog⟩]

/-- The method `server.ServeHTTP`: the router serves the request. -/
def ServeHTTP (db : Firestore) (env : Env) (w : ResponseWriter) (req : HttpRequest) : Served :=
  match routeRequest "/dogs" routes req with
  | Routed.redirect location =>
    ⟨(w.setHeader "Location" location).WriteHeader StatusMovedPermanently, db, []⟩
  | Routed.handler Handler.handleFindDog vars =>
    handleFindDog db env w ⟨vars, req.query, req.body⟩
  | Routed.handler Handler.handleGetDog vars =>
    handleGetDog db env w ⟨vars, req.query, req.body⟩
  | Routed.handler Handler.handleCreateDog vars =>
    handleCreateDog db env w ⟨vars, req.query, req.body⟩
  | Routed.methodNotAllowed => ⟨w.WriteHeader StatusMethodNotAllowed, db, []⟩
  | Routed.notFound => ⟨httpError w "404 page not found" StatusNotFound, db, []⟩

end Http

namespace Cmd

/-- The method `server.routes`: the routes of the subrouter under `/dogs`, in the
order in which they are registered. -/
def routes : List Route :=
  [⟨"/find", "GET", Handler.handleFindDog⟩,
   ⟨"/\x7bdogID\x7d", "GET", Handler.handleGetDog⟩,
   ⟨"", "POST", Handler.handleCreateDog⟩]

/-- The method `server.ServeHTTP`: the router serves the request. -/
def ServeHTTP (db : Firestore) (env : Env) (w : ResponseWriter) (req : HttpRequest) : Served :=
  match routeRequest "/dogs" routes req with
  | Routed.redirect location =>
    ⟨(w.setHeader "Location" location).WriteHeader StatusMovedPermanently, db, []⟩
  | Routed.handler Handler.handleFindDog vars =>
    handleFindDog db env w ⟨vars, req.query, req.body⟩
  | Routed.handler Handler.handleGetDog vars =>
    handleGetDog db env w ⟨vars, req.query, req.body⟩
  | Routed.handler Handler.handleCreateDog vars =>
    handleCreateDog db env w ⟨vars, req.query, req.body⟩
  | Routed.methodNotAllowed => ⟨w.WriteHeader StatusMethodNotAllowed, db, []⟩
  | Routed.notFound => ⟨httpError w "404 page not found" StatusNotFound, db, []⟩

end Cmd

/-- The request `GET path` with no query and no body. -/
def httpGet (path : String) : HttpRequest := ⟨"GET", path, "", [], Body.invalid "EOF"⟩

/-! ## A reader of flat JSON objects

The reader is independent of the encoder above: it splits the text of a JSON
object whose values are strings and integers into its members, in order. -/

/-- A store holding one document that does not decode into a `Dog`: its `age` is
a string. -/
def strayStore : Firestore :=
  ⟨[("stray", ⟨some (Value.string "Rex"), some (Value.string "three"),
    some (Value.string "Poodle"), some (Value.string "stray"), none⟩)]⟩

/-- An environment in which the store call fails with a not-found status that is
not about the document. -/
def missingDatabase : Env :=
  ⟨some (StoreError.rpc Code.NotFound "database not found"), calm.entropy, calm.now⟩

/-! ## Properties of the record service -/

theorem docPath_inj {a b : String} (h : docPath a = docPath b) : a = b := by
  unfold docPath at h
  have h2 := congrArg String.data h
  simp only [String.data_append, List.append_cancel_left_eq] at h2
  exact String.ext h2

theorem docPath_beq (a b : String) : (docPath a == docPath b) = (a == b) := by
  by_cases h : a = b
  · subst h; simp
  · have h2 : docPath a ≠ docPath b := fun hp => h (docPath_inj hp)
    simp [h, h2]

theorem uniqueID_length (entropy : List Nat) : (uniqueID entropy).length = 20 := by
  simp [uniqueID, String.length]

theorem uniqueID_ne_empty (entropy : List Nat) : uniqueID entropy ≠ "" := by
  intro h
  have h2 := uniqueID_length entropy
  rw [h] at h2
  simp at h2

/-- A run of characters with no slash is a single path element. -/
theorem splitSlash_noSlash (cs : List Char) (h : '/' ∉ cs) : splitSlash cs = [cs] := by
  induction cs with
  | nil => rfl
  | cons c rest ih =>
    have hc : c ≠ '/' := fun e => h (e ▸ List.mem_cons_self _ _)
    have hrest : '/' ∉ rest := fun m => h (List.mem_cons_of_mem _ m)
    simp [splitSlash, hc, ih hrest]

/-- The elements of a path that begins with an element without slash, followed by
a slash. -/
theorem splitSlash_append (a b : List Char) (h : '/' ∉ a) :
    splitSlash (a ++ '/' :: b) = a :: splitSlash b := by
  induction a with
  | nil => simp [splitSlash]
  | cons c rest ih =>
    have hc : c ≠ '/' := fun e => h (e ▸ List.mem_cons_self _ _)
    have hrest : '/' ∉ rest := fun m => h (List.mem_cons_of_mem _ m)
    simp [splitSlash, hc, ih hrest]

/-- The path of an identifier that is not empty and has no slash is a document
path. -/
theorem isDocPath_docPath (id : String) (hne : id ≠ "") (hslash : '/' ∉ id.toList) :
    isDocPath (docPath id) = true := by
  have hid : id.toList ≠ [] := fun h => hne (String.ext h)
  have hlist : (docPath id).toList = ['d', 'o', 'g', 's'] ++ '/' :: id.toList := by
    simp [docPath, dogCollectionName, String.toList, String.data_append]
  have hsplit : splitSlash (docPath id).toList = [['d', 'o', 'g', 's'], id.toList] := by
    rw [hlist, splitSlash_append _ _ (by decide), splitSlash_noSlash _ hslash]
  have hdata : id.data ≠ [] := hid
  unfold isDocPath
  rw [hsplit]
  simp [hdata]

/-- A generated key has no slash. -/
theorem uniqueID_noSlash (entropy : List Nat) : '/' ∉ (uniqueID entropy).toList := by
  intro h
  simp only [uniqueID, String.toList, List.mem_map] at h
  obtain ⟨i, _, hi⟩ := h
  have hlt : entropy.getD i 0 % 62 < 62 := Nat.mod_lt _ (by decide)
  revert hi
  generalize entropy.getD i 0 % 62 = k at hlt
  interval_cases k <;> decide

/-- The path of a generated key is a document path. -/
theorem isDocPath_uniqueID (entropy : List Nat) :
    isDocPath (docPath (uniqueID entropy)) = true :=
  isDocPath_docPath _ (uniqueID_ne_empty entropy) (uniqueID_noSlash entropy)

/-- Decoding the document written for a dog gives the dog back, with the
timestamp the store assigned. -/
theorem dataTo_toDocument (dog : Dog) (now : Time) :
    (dog.toDocument now).DataTo Dog.zero =
      Except.ok { dog with CreatedTimestamp :=
        if dog.CreatedTimestamp = Time.zero then now else dog.CreatedTimestamp } := by
  rfl

/-- A successful `CreateDog` returns the generated key and appends one document
under that key, and the key was free before. -/
theorem createDog_ok {db db1 : Firestore} {env : Env} {request : CreateDogRequest}
    {id : String} (h : CreateDog db env request = (Except.ok id, db1)) :
    env.fault = none ∧ id = uniqueID env.entropy ∧ (∀ kv ∈ db.dogs, kv.1 ≠ id) ∧
    db1.dogs = db.dogs ++ [(id, (Dog.mk request.Name request.Age request.Typ id
      Time.zero).toDocument env.now)] := by
  unfold CreateDog Firestore.Create at h
  cases hf : env.fault with
  | some e => simp [hf] at h
  | none =>
    simp only [hf] at h
    by_cases hany : db.dogs.any (fun kv => kv.1 == uniqueID env.entropy) = true
    · simp [hany] at h
    · simp only [hany] at h
      simp only [Bool.false_eq_true, if_false, Prod.mk.injEq, Except.ok.injEq] at h
      obtain ⟨hid, hdb⟩ := h
      subst hid
      refine ⟨rfl, rfl, ?_, ?_⟩
      · intro kv hkv heq
        apply hany
        rw [List.any_eq_true]
        exact ⟨kv, hkv, by simp [heq]⟩
      · rw [← hdb]

/-- Reading a path at which the store holds no document reports `NotFound`. -/
theorem get_absent (db : Firestore) (id : String) (hpath : isDocPath (docPath id) = true)
    (h : ∀ kv ∈ db.dogs, kv.1 ≠ id) :
    db.Get none (docPath id) =
      Except.error (StoreError.rpc Code.NotFound (docPath id ++ " not found")) := by
  unfold Firestore.Get
  rw [if_pos hpath]
  have hfind : db.dogs.find? (fun kv => docPath kv.1 == docPath id) = none := by
    rw [List.find?_eq_none]
    intro kv hkv
    rw [docPath_beq]
    simpa using h kv hkv
  simp [hfind]

/-- Reading the path of a document appended under a free key returns it. -/
theorem get_appended (docs : List (String × Document)) (id : String) (d : Document)
    (hpath : isDocPath (docPath id) = true) (h : ∀ kv ∈ docs, kv.1 ≠ id) :
    Firestore.Get { dogs := docs ++ [(id, d)] } none (docPath id) = Except.ok d := by
  unfold Firestore.Get
  rw [if_pos hpath]
  have hfind : (docs ++ [(id, d)]).find? (fun kv => docPath kv.1 == docPath id)
      = some (id, d) := by
    rw [List.find?_append]
    have h1 : docs.find? (fun kv => docPath kv.1 == docPath id) = none := by
      rw [List.find?_eq_none]
      intro kv hkv
      rw [docPath_beq]
      simpa using h kv hkv
    simp [h1]
  simp [hfind]


/-- The loop of `FindDogByType` returns the dogs it started with followed by the
decodings of the snapshots, in order. -/
theorem decodeAll_ok (docs : List Document) (acc dogs : List Dog)
    (h : decodeAll docs acc = Except.ok dogs) :
    dogs.map Except.ok = acc.map Except.ok ++ docs.map (fun d => d.DataTo Dog.zero) := by
  induction docs generalizing acc with
  | nil =>
    simp only [decodeAll, Except.ok.injEq] at h
    simp [h]
  | cons d rest ih =>
    unfold decodeAll at h
    cases hd : d.DataTo Dog.zero with
    | error e => simp [hd] at h
    | ok dog =>
      simp only [hd] at h
      rw [ih (acc ++ [dog]) h]
      simp [hd]

/-- A document whose field `type` is the string `t` decodes, if at all, to a dog
of type `t`. -/
theorem dataTo_type (d : Document) (t : String) (dog : Dog)
    (ht : d.type = some (Value.string t)) (h : d.DataTo Dog.zero = Except.ok dog) :
    dog.Typ = t := by
  unfold Document.DataTo at h
  rw [ht] at h
  simp only [setString, bind, Except.bind, pure, Except.pure] at h
  split at h
  · simp at h
  · split at h
    · simp at h
    · split at h
      · simp at h
      · split at h
        · simp at h
        · simp only [Except.ok.injEq] at h
          rw [← h]


/-- C1: for every store state, every request with non-empty name and type and
any integer age, if `CreateDog` succeeds and returns `id`, then `GetDogByID id`
on the resulting store (the read being answered by the store) succeeds and
returns a dog whose name, age and type are the request's and whose id is
non-empty and equal to the returned id. -/
theorem createDog_then_getDogByID (db db1 : Firestore) (env env2 : Env)
    (request : CreateDogRequest) (id : String)
    (_hname : request.Name ≠ "") (_htype : request.Typ ≠ "")
    (hcreate : CreateDog db env request = (Except.ok id, db1))
    (hread : env2.fault = none) :
    ∃ dog, GetDogByID db1 env2 id = Except.ok dog ∧ dog.Name = request.Name ∧
      dog.Age = request.Age ∧ dog.Typ = request.Typ ∧ dog.ID = id ∧ dog.ID ≠ "" := by
  obtain ⟨_, hid, hfree, hdb⟩ := createDog_ok hcreate
  have hpath : isDocPath (docPath id) = true := by
    rw [hid]
    exact isDocPath_uniqueID env.entropy
  have hget := get_appended db.dogs id
    ((Dog.mk request.Name request.Age request.Typ id Time.zero).toDocument env.now) hpath hfree
  rw [← hdb] at hget
  refine ⟨⟨request.Name, request.Age, request.Typ, id, env.now⟩, ?_, rfl, rfl, rfl, rfl, ?_⟩
  · unfold GetDogByID
    rw [hread]
    change (match Firestore.Get db1 none (docPath id) with
      | Except.error err => _
      | Except.ok docRefSnap => _) = _
    have hdb1 : Firestore.Get db1 none (docPath id) = Firestore.Get { dogs := db1.dogs } none
        (docPath id) := rfl
    rw [hdb1, hget]
    simp only [dataTo_toDocument]
    simp
  · change id ≠ ""
    rw [hid]
    exact uniqueID_ne_empty env.entropy

theorem createDog_then_getDogByID_witness :
    ∃ dog, GetDogByID (CreateDog emptyStore calm oscar).2 calm (uniqueID calm.entropy)
        = Except.ok dog ∧ dog.Name = oscar.Name ∧ dog.Age = oscar.Age ∧
      dog.Typ = oscar.Typ ∧ dog.ID = uniqueID calm.entropy ∧ dog.ID ≠ "" :=
  createDog_then_getDogByID emptyStore (CreateDog emptyStore calm oscar).2 calm calm oscar
    (uniqueID calm.entropy) (by decide) (by decide) rfl rfl

/-- A failed `CreateDog` leaves the store as it was. -/
theorem createDog_error {db db1 : Firestore} {env : Env} {request : CreateDogRequest}
    {err : Error} (h : CreateDog db env request = (Except.error err, db1)) : db1 = db := by
  simp only [CreateDog, Firestore.Create] at h
  cases hf : env.fault with
  | some e =>
    simp only [hf, Prod.mk.injEq] at h
    exact h.2.symm
  | none =>
    simp only [hf] at h
    by_cases hany : db.dogs.any (fun kv => kv.1 == uniqueID env.entropy) = true
    · simp only [hany, if_true, Prod.mk.injEq] at h
      exact h.2.symm
    · simp [hany] at h

/-- Every document of the store a run of `CreateDog` calls leaves was in the
store before the run or lies under an identifier one of the calls returned. -/
theorem createAll_keys (calls : List (Env × CreateDogRequest)) (db : Firestore)
    (kv : String × Document) (hkv : kv ∈ (createAll db calls).1.dogs) :
    (∃ old ∈ db.dogs, old.1 = kv.1) ∨ kv.1 ∈ (createAll db calls).2 := by
  induction calls generalizing db with
  | nil => exact Or.inl ⟨kv, hkv, rfl⟩
  | cons call rest ih =>
    unfold createAll at hkv ⊢
    cases hc : CreateDog db call.1 call.2 with
    | mk res db1 =>
      cases res with
      | error e =>
        simp only [hc] at hkv ⊢
        have hdb := createDog_error hc
        subst hdb
        exact ih _ hkv
      | ok id =>
        simp only [hc] at hkv ⊢
        obtain ⟨_, _, _, hdb⟩ := createDog_ok hc
        rcases ih db1 hkv with ⟨old, hold, hk⟩ | hin
        · rw [hdb, List.mem_append] at hold
          rcases hold with hold | hold
          · exact Or.inl ⟨old, hold, hk⟩
          · right
            simp only [List.mem_singleton] at hold
            rw [← hk, hold]
            exact List.mem_cons_self _ _
        · exact Or.inr (List.mem_cons_of_mem _ hin)

/-- C2 as amended: for every store state and every identifier whose path
`dogs/<id>` is a document path (an even number of IDs, none empty: every
non-empty identifier without a slash is one) and under which the store holds no
record, `GetDogByID`, the read being answered by the store, returns no dog and
exactly the sentinel `ErrDogNotFound`; in particular so after any run of
`CreateDog` calls for an identifier that none of them produced and that was not
in the store before.  For every other identifier the client refuses the path
and `GetDogByID` returns, whatever the store and the environment, the wrapped
client error, which is not `ErrDogNotFound`. -/
theorem getDogByID_absent (env : Env) (id : String) :
    (env.fault = none → isDocPath (docPath id) = true →
      (∀ db : Firestore, (∀ kv ∈ db.dogs, kv.1 ≠ id) →
        GetDogByID db env id = Except.error Error.ErrDogNotFound) ∧
      (∀ (db : Firestore) (calls : List (Env × CreateDogRequest)),
        (∀ kv ∈ db.dogs, kv.1 ≠ id) → id ∉ (createAll db calls).2 →
        GetDogByID (createAll db calls).1 env id = Except.error Error.ErrDogNotFound)) ∧
    (id ≠ "" → '/' ∉ id.toList → isDocPath (docPath id) = true) ∧
    (isDocPath (docPath id) = false → ∀ db : Firestore,
      GetDogByID db env id = Except.error (Error.Errorf "ds.db.Doc(%q): %w" [docPath id]
        (StoreError.client "firestore: nil DocumentRef")) ∧
      GetDogByID db env id ≠ Except.error Error.ErrDogNotFound) := by
  refine ⟨?_, isDocPath_docPath id, ?_⟩
  · intro hread hpath
    have habs : ∀ db : Firestore, (∀ kv ∈ db.dogs, kv.1 ≠ id) →
        GetDogByID db env id = Except.error Error.ErrDogNotFound := by
      intro db habsent
      unfold GetDogByID
      rw [hread]
      change (match Firestore.Get db none (docPath id) with
        | Except.error err => _
        | Except.ok docRefSnap => _) = _
      rw [get_absent db id hpath habsent]
      simp [statusCode]
    refine ⟨habs, ?_⟩
    intro db calls hold hnew
    apply habs
    intro kv hkv heq
    rcases createAll_keys calls db kv hkv with ⟨old, hmem, hk⟩ | hin
    · exact hold old hmem (hk.trans heq)
    · exact hnew (heq ▸ hin)
  · intro hpath db
    have hget : Firestore.Get db env.fault (docPath id) =
        Except.error (StoreError.client "firestore: nil DocumentRef") := by
      unfold Firestore.Get
      simp [hpath]
    have hres : GetDogByID db env id = Except.error (Error.Errorf "ds.db.Doc(%q): %w"
        [docPath id] (StoreError.client "firestore: nil DocumentRef")) := by
      unfold GetDogByID
      change (match Firestore.Get db env.fault (docPath id) with
        | Except.error err => _
        | Except.ok docRefSnap => _) = _
      rw [hget]
      simp [statusCode, docPath]
    refine ⟨hres, ?_⟩
    rw [hres]
    simp

theorem getDogByID_absent_witness :
    GetDogByID (createAll emptyStore [(calm, oscar)]).1 calm "999"
      = Except.error Error.ErrDogNotFound :=
  ((getDogByID_absent calm "999").1 rfl rfl).2 emptyStore [(calm, oscar)] (by decide)
    (by decide)

/-- C2 as stated fails at the identifiers `a/b` and the empty one: no `CreateDog`
produced them and the store holds no record under them, yet `GetDogByID` returns
the wrapped client error for the refused path, not `ErrDogNotFound`. -/
theorem getDogByID_refused_path :
    (∀ kv ∈ oscarStore.dogs, kv.1 ≠ "a/b") ∧
    GetDogByID oscarStore calm "a/b" =
      Except.error (Error.Errorf "ds.db.Doc(%q): %w" ["dogs/a/b"]
        (StoreError.client "firestore: nil DocumentRef")) ∧
    GetDogByID oscarStore calm "a/b" ≠ Except.error Error.ErrDogNotFound ∧
    (∀ kv ∈ oscarStore.dogs, kv.1 ≠ "") ∧
    GetDogByID oscarStore calm "" =
      Except.error (Error.Errorf "ds.db.Doc(%q): %w" ["dogs/"]
        (StoreError.client "firestore: nil DocumentRef")) ∧
    GetDogByID oscarStore calm "" ≠ Except.error Error.ErrDogNotFound := by
  refine ⟨by decide, rfl, ?_, by decide, rfl, ?_⟩
  · have h : GetDogByID oscarStore calm "a/b" =
        Except.error (Error.Errorf "ds.db.Doc(%q): %w" ["dogs/a/b"]
          (StoreError.client "firestore: nil DocumentRef")) := rfl
    rw [h]
    simp
  · have h : GetDogByID oscarStore calm "" =
        Except.error (Error.Errorf "ds.db.Doc(%q): %w" ["dogs/"]
          (StoreError.client "firestore: nil DocumentRef")) := rfl
    rw [h]
    simp

/-- The result of `FindDogByType` when the query is answered: the loop run over
the documents the query selects. -/
theorem findDogByType_answered (db : Firestore) (env : Env) (t : String)
    (hq : env.fault = none) :
    FindDogByType db env t =
      decodeAll ((db.dogs.filter (fun kv => kv.2.type == some (Value.string t))).map
        Prod.snd) [] := by
  unfold FindDogByType Firestore.WhereType
  rw [hq]

/-- A successful `FindDogByType` had its query answered. -/
theorem findDogByType_ok_fault {db : Firestore} {env : Env} {t : String} {dogs : List Dog}
    (h : FindDogByType db env t = Except.ok dogs) : env.fault = none := by
  cases hf : env.fault with
  | none => rfl
  | some e =>
    unfold FindDogByType Firestore.WhereType at h
    simp [hf] at h

/-- C3: for every store state and every string `t`, a successful
`FindDogByType t` returns exactly the stored records whose field `type` is the
string `t`, compared exactly: the returned dogs are the decodings of those
records, one for one and none besides, and each has type `t`; and after creating
one record of type `t` in an empty store the result is the one-element sequence
holding that record. -/
theorem findDogByType_exact (db : Firestore) (env : Env) (t : String) (dogs : List Dog)
    (h : FindDogByType db env t = Except.ok dogs) :
    dogs.map Except.ok =
        (db.dogs.filter (fun kv => kv.2.type == some (Value.string t))).map
          (fun kv => kv.2.DataTo Dog.zero) ∧
      (∀ dog ∈ dogs, dog.Typ = t) ∧
      (∀ (env1 env2 : Env) (request : CreateDogRequest), request.Typ = t →
        env1.fault = none → env2.fault = none →
        FindDogByType (CreateDog emptyStore env1 request).2 env2 t =
          Except.ok [⟨request.Name, request.Age, t, uniqueID env1.entropy, env1.now⟩]) := by
  have hq := findDogByType_ok_fault h
  rw [findDogByType_answered db env t hq] at h
  have hmap := decodeAll_ok _ _ _ h
  simp only [List.map_nil, List.nil_append, List.map_map] at hmap
  refine ⟨hmap, ?_, ?_⟩
  · intro dog hdog
    have hmem : (Except.ok dog : Except StoreError Dog) ∈ dogs.map Except.ok :=
      List.mem_map_of_mem _ hdog
    rw [hmap, List.mem_map] at hmem
    obtain ⟨kv, hkv, hdec⟩ := hmem
    have hsel := (List.mem_filter.mp hkv).2
    have htype : kv.2.type = some (Value.string t) := by simpa using hsel
    exact dataTo_type kv.2 t dog htype hdec
  · intro env1 env2 request hty h1 h2
    subst hty
    rw [findDogByType_answered _ env2 _ h2]
    simp [CreateDog, Firestore.Create, h1, emptyStore, Dog.toDocument, decodeAll,
      Document.DataTo, setString, setInt, setTime, Dog.zero, bind, Except.bind, pure,
      Except.pure]

theorem findDogByType_exact_witness :
    [oscar.toDog calm].map Except.ok =
        ((CreateDog emptyStore calm oscar).2.dogs.filter
          (fun kv => kv.2.type == some (Value.string "Golden Doodle"))).map
          (fun kv => kv.2.DataTo Dog.zero) ∧
      (∀ dog ∈ [oscar.toDog calm], dog.Typ = "Golden Doodle") :=
  have h := findDogByType_exact (CreateDog emptyStore calm oscar).2 calm "Golden Doodle"
    [oscar.toDog calm] rfl
  ⟨h.1, h.2.1⟩

/-- C4: for every string `t`, the empty string included, and every store state
with no record of type `t`, `FindDogByType t` returns the empty sequence and no
error whenever the query is answered. -/
theorem findDogByType_none (db : Firestore) (env : Env) (t : String)
    (hq : env.fault = none)
    (hnone : ∀ kv ∈ db.dogs, kv.2.type ≠ some (Value.string t)) :
    FindDogByType db env t = Except.ok [] ∧
      ∀ dogs, FindDogByType db env t = Except.ok dogs → dogs.length = 0 := by
  have hsel : db.dogs.filter (fun kv => kv.2.type == some (Value.string t)) = [] := by
    rw [List.filter_eq_nil_iff]
    intro kv hkv
    simpa using hnone kv hkv
  have hres : FindDogByType db env t = Except.ok [] := by
    rw [findDogByType_answered db env t hq, hsel]
    rfl
  refine ⟨hres, ?_⟩
  intro dogs hd
  rw [hres] at hd
  simp only [Except.ok.injEq] at hd
  rw [← hd]
  rfl

theorem findDogByType_none_witness :
    FindDogByType (CreateDog emptyStore calm oscar).2 calm "" = Except.ok [] ∧
      ∀ dogs, FindDogByType (CreateDog emptyStore calm oscar).2 calm "" = Except.ok dogs →
        dogs.length = 0 :=
  findDogByType_none (CreateDog emptyStore calm oscar).2 calm "" rfl (by decide)

/-! ## Properties of the request layer -/

/-- Every payload the handlers pass to `respond` can be encoded. -/
theorem marshal_ok (d : Payload) : ∃ text, d.marshal = Except.ok text := by
  cases d <;> exact ⟨_, rfl⟩

/-- The status after `respond`: the status already written if there is one, the
status passed otherwise. -/
theorem Http.respond_status (w : ResponseWriter) (data : Option Payload) (status : Nat) :
    (Http.respond w data status).status = if w.wroteHeader then w.status else status := by
  cases data with
  | none =>
    cases hw : w.wroteHeader <;>
      simp [Http.respond, ResponseWriter.WriteHeader, ResponseWriter.status, hw]
  | some d =>
    obtain ⟨text, ht⟩ := marshal_ok d
    cases hw : w.wroteHeader <;>
      simp [Http.respond, jsonEncode, ht, ResponseWriter.WriteHeader, ResponseWriter.Write,
        ResponseWriter.setHeader, ResponseWriter.status, hw]

/-- Responding without data adds nothing to the body. -/
theorem Http.respond_body_none (w : ResponseWriter) (status : Nat) :
    (Http.respond w none status).body = w.body := by
  cases hw : w.wroteHeader <;> simp [Http.respond, ResponseWriter.WriteHeader, hw]

/-- Responding with data adds its encoding and a newline to the body. -/
theorem Http.respond_body_some (w : ResponseWriter) (d : Payload) (status : Nat) (text : String)
    (ht : d.marshal = Except.ok text) :
    (Http.respond w (some d) status).body = w.body ++ (text ++ "\n") := by
  cases hw : w.wroteHeader <;>
    simp [Http.respond, jsonEncode, ht, ResponseWriter.WriteHeader, ResponseWriter.Write,
      ResponseWriter.setHeader, hw]

/-- After `respond` the status line has been written. -/
theorem Http.respond_wroteHeader (w : ResponseWriter) (data : Option Payload) (status : Nat) :
    (Http.respond w data status).wroteHeader = true := by
  cases data with
  | none =>
    cases hw : w.wroteHeader <;> simp [Http.respond, ResponseWriter.WriteHeader, hw]
  | some d =>
    obtain ⟨text, ht⟩ := marshal_ok d
    cases hw : w.wroteHeader <;>
      simp [Http.respond, jsonEncode, ht, ResponseWriter.WriteHeader, ResponseWriter.Write,
        ResponseWriter.setHeader, hw]

theorem fresh_wroteHeader : ResponseWriter.fresh.wroteHeader = false := rfl

theorem fresh_body : ResponseWriter.fresh.body = "" := rfl

/-- C5: for every `GET /dogs/{dogID}` request the get handler calls
`GetDogByID dogID` and its response follows from the outcome: status 200 with
the dog encoded as JSON when it succeeds, status 404 if and only if the error is
`ErrDogNotFound`, and status 500 for every other error. -/
theorem handleGetDog_status (db : Firestore) (env : Env) (r : Request) (dogID : String)
    (hvar : r.vars.lookup "dogID" = some dogID) :
    (Http.handleGetDog db env ResponseWriter.fresh r).calls = [Call.GetDogByID dogID] ∧
    (∀ dog, GetDogByID db env dogID = Except.ok dog →
      (Http.handleGetDog db env ResponseWriter.fresh r).w.status = 200 ∧
      (Http.handleGetDog db env ResponseWriter.fresh r).w.body = dog.marshalJSON ++ "\n") ∧
    ((Http.handleGetDog db env ResponseWriter.fresh r).w.status = 404 ↔
      GetDogByID db env dogID = Except.error Error.ErrDogNotFound) ∧
    (∀ err, GetDogByID db env dogID = Except.error err → err ≠ Error.ErrDogNotFound →
      (Http.handleGetDog db env ResponseWriter.fresh r).w.status = 500) := by
  cases hres : GetDogByID db env dogID with
  | ok dog =>
    have hserved : Http.handleGetDog db env ResponseWriter.fresh r =
        ⟨Http.respond ResponseWriter.fresh (some (Payload.dog dog)) StatusOK, db,
          [Call.GetDogByID dogID]⟩ := by
      simp [Http.handleGetDog, hvar, hres]
    rw [hserved]
    refine ⟨rfl, ?_, ?_, ?_⟩
    · intro dog2 hd
      simp only [Except.ok.injEq] at hd
      subst hd
      refine ⟨?_, ?_⟩
      · simp [Http.respond_status, fresh_wroteHeader, StatusOK]
      · rw [Http.respond_body_some ResponseWriter.fresh (Payload.dog dog) StatusOK
          dog.marshalJSON rfl, fresh_body]
        simp
    · simp [Http.respond_status, fresh_wroteHeader, StatusOK]
    · intro err he
      simp at he
  | error e =>
    by_cases hs : e = Error.ErrDogNotFound
    · have hserved : Http.handleGetDog db env ResponseWriter.fresh r =
          ⟨Http.respond ResponseWriter.fresh none StatusNotFound, db,
            [Call.GetDogByID dogID]⟩ := by
        simp [Http.handleGetDog, hvar, hres, hs]
      rw [hserved]
      refine ⟨rfl, ?_, ?_, ?_⟩
      · intro dog hd
        simp at hd
      · simp [Http.respond_status, fresh_wroteHeader, StatusNotFound, hs]
      · intro err he hne
        simp only [Except.error.injEq] at he
        exact absurd (he ▸ hs) hne
    · have hserved : Http.handleGetDog db env ResponseWriter.fresh r =
          ⟨Http.respond ResponseWriter.fresh none StatusInternalServerError, db,
            [Call.GetDogByID dogID]⟩ := by
        simp [Http.handleGetDog, hvar, hres, hs]
      rw [hserved]
      refine ⟨rfl, ?_, ?_, ?_⟩
      · intro dog hd
        simp at hd
      · simp [Http.respond_status, fresh_wroteHeader, StatusInternalServerError, hs]
      · intro err _ _
        simp [Http.respond_status, fresh_wroteHeader, StatusInternalServerError]

theorem handleGetDog_status_witness :
    (Http.handleGetDog oscarStore calm ResponseWriter.fresh (getRequest "999")).w.status = 404 ↔
      GetDogByID oscarStore calm "999" = Except.error Error.ErrDogNotFound :=
  (handleGetDog_status oscarStore calm (getRequest "999") "999" rfl).2.2.1

/-- Members none of whose keys selects the field `age` leave the age as it was. -/
theorem unmarshal_age_untouched (members : List (String × JSON))
    (st : CreateDogRequest × Option String)
    (h : ∀ m ∈ members, foldKey m.1 ≠ "age") :
    (members.foldl unmarshalMember st).1.Age = st.1.Age := by
  induction members generalizing st with
  | nil => rfl
  | cons m rest ih =>
    rw [List.foldl_cons, ih _ (fun m2 hm2 => h m2 (List.mem_cons_of_mem _ hm2))]
    have hm := h m (List.mem_cons_self _ _)
    unfold unmarshalMember
    simp only [hm, if_false]
    split
    · rfl
    · split <;> rfl

/-- C6: for every `POST /dogs` request the status of the create handler's
response is 400 if the body does not decode or the decoded name or type is
empty; 500 if the body is valid and `CreateDog` fails; 200, with the body
`dog_id` object holding the id `CreateDog` returned, if the body is valid and
`CreateDog` succeeds; and a body object without a member `age` decodes to age 0. -/
theorem handleCreateDog_status (db : Firestore) (env : Env) (r : Request) :
    (((jsonDecode r.body ⟨"", 0, ""⟩).2 ≠ none ∨ (jsonDecode r.body ⟨"", 0, ""⟩).1.Name = "" ∨
        (jsonDecode r.body ⟨"", 0, ""⟩).1.Typ = "") →
      (Http.handleCreateDog db env ResponseWriter.fresh r).w.status = 400) ∧
    ((jsonDecode r.body ⟨"", 0, ""⟩).2 = none → (jsonDecode r.body ⟨"", 0, ""⟩).1.Name ≠ "" →
        (jsonDecode r.body ⟨"", 0, ""⟩).1.Typ ≠ "" →
      (∀ err db1, CreateDog db env (jsonDecode r.body ⟨"", 0, ""⟩).1 = (Except.error err, db1) →
        (Http.handleCreateDog db env ResponseWriter.fresh r).w.status = 500) ∧
      (∀ id db1, CreateDog db env (jsonDecode r.body ⟨"", 0, ""⟩).1 = (Except.ok id, db1) →
        (Http.handleCreateDog db env ResponseWriter.fresh r).w.status = 200 ∧
        (Http.handleCreateDog db env ResponseWriter.fresh r).w.body =
          "\x7b\"dog_id\":" ++ jsonString id ++ "\x7d" ++ "\n")) ∧
    (∀ members, r.body = Body.ofMembers members →
      (∀ m ∈ members, foldKey m.1 ≠ "age") →
      (jsonDecode r.body ⟨"", 0, ""⟩).1.Age = 0) := by
  refine ⟨?_, ?_, ?_⟩
  · intro hbad
    by_cases hempty : (jsonDecode r.body ⟨"", 0, ""⟩).1.Name = "" ∨
        (jsonDecode r.body ⟨"", 0, ""⟩).1.Typ = ""
    · have hserved : (Http.handleCreateDog db env ResponseWriter.fresh r).w =
          Http.respond (if (jsonDecode r.body ⟨"", 0, ""⟩).2 ≠ none then
            Http.respond ResponseWriter.fresh none StatusBadRequest else ResponseWriter.fresh)
            none StatusBadRequest := by
        simp only [Http.handleCreateDog, Http.decode]
        rw [if_pos hempty]
      rw [hserved, Http.respond_status]
      by_cases hd : (jsonDecode r.body ⟨"", 0, ""⟩).2 = none
      · simp [hd, fresh_wroteHeader, StatusBadRequest]
      · simp [hd, Http.respond_wroteHeader, Http.respond_status, fresh_wroteHeader,
          StatusBadRequest]
    · have hd : (jsonDecode r.body ⟨"", 0, ""⟩).2 ≠ none := by
        rcases hbad with h | h | h
        · exact h
        · exact absurd (Or.inl h) hempty
        · exact absurd (Or.inr h) hempty
      have hw1 : ∀ data status, (Http.respond (Http.respond ResponseWriter.fresh none
          StatusBadRequest) data status).status = 400 := by
        intro data status
        simp [Http.respond_status, Http.respond_wroteHeader, fresh_wroteHeader, StatusBadRequest]
      simp only [Http.handleCreateDog, Http.decode]
      rw [if_neg hempty, if_pos hd]
      split
      · exact hw1 _ _
      · exact hw1 _ _
  · intro hd hname htype
    have hempty : ¬ ((jsonDecode r.body ⟨"", 0, ""⟩).1.Name = "" ∨
        (jsonDecode r.body ⟨"", 0, ""⟩).1.Typ = "") := by
      rintro (h | h)
      · exact hname h
      · exact htype h
    refine ⟨?_, ?_⟩
    · intro err db1 hc
      simp only [Http.handleCreateDog, Http.decode]
      rw [if_neg hempty, hc]
      simp [hd, Http.respond_status, fresh_wroteHeader, StatusInternalServerError]
    · intro id db1 hc
      simp only [Http.handleCreateDog, Http.decode]
      rw [if_neg hempty, hc]
      refine ⟨?_, ?_⟩
      · simp [hd, Http.respond_status, fresh_wroteHeader, StatusOK]
      · simp only [hd, ne_eq, not_true_eq_false, if_false]
        rw [Http.respond_body_some ResponseWriter.fresh (Payload.createDogResponse id) StatusOK
          ("\x7b\"dog_id\":" ++ jsonString id ++ "\x7d") rfl, fresh_body]
        simp
  · intro members hb hage
    rw [hb]
    exact unmarshal_age_untouched members _ hage

theorem handleCreateDog_status_witness :
    (Http.handleCreateDog emptyStore calm ResponseWriter.fresh (postRequest oscarBody)).w.status
        = 200 ∧
      (Http.handleCreateDog emptyStore calm ResponseWriter.fresh (postRequest oscarBody)).w.body
        = "\x7b\"dog_id\":" ++ jsonString (uniqueID calm.entropy) ++ "\x7d" ++ "\n" :=
  ((handleCreateDog_status emptyStore calm (postRequest oscarBody)).2.1 rfl (by decide)
    (by decide)).2 (uniqueID calm.entropy)
    (CreateDog emptyStore calm ⟨"Oscar", 0, "Golden Doodle"⟩).2 rfl

/-- C7, evaluated where it fails: on the body with name "Oscar", type "Golden
Doodle" and the string "one" as age, the decoder reports an error, and yet both
create handlers call `CreateDog`, a record is written to the empty store, and
the response carries status 400 together with the new record's id. -/
theorem handleCreateDog_mistyped_reaches_service :
    (jsonDecode mistypedBody ⟨"", 0, ""⟩).2 ≠ none ∧
      (jsonDecode mistypedBody ⟨"", 0, ""⟩).1 = ⟨"Oscar", 0, "Golden Doodle"⟩ ∧
      (Http.handleCreateDog emptyStore calm ResponseWriter.fresh
          (postRequest mistypedBody)).calls = [Call.CreateDog ⟨"Oscar", 0, "Golden Doodle"⟩] ∧
      (Http.handleCreateDog emptyStore calm ResponseWriter.fresh
          (postRequest mistypedBody)).db ≠ emptyStore ∧
      (Http.handleCreateDog emptyStore calm ResponseWriter.fresh
          (postRequest mistypedBody)).w.status = 400 ∧
      (Http.handleCreateDog emptyStore calm ResponseWriter.fresh
          (postRequest mistypedBody)).w.body = "\x7b\"dog_id\":\"OsckrOH9AABCDEFGHIJK\"\x7d\n" ∧
      (Cmd.handleCreateDog emptyStore calm ResponseWriter.fresh
          (postRequest mistypedBody)).calls = [Call.CreateDog ⟨"Oscar", 0, "Golden Doodle"⟩] ∧
      (Cmd.handleCreateDog emptyStore calm ResponseWriter.fresh
          (postRequest mistypedBody)).db ≠ emptyStore := by
  refine ⟨?_, ?_, ?_, ?_, ?_, ?_, ?_, ?_⟩ <;> decide

/-- C8: for every `GET /dogs/find` request, the find handler responds 404 without
calling `FindDogByType` when the query parameter `type` is missing or empty;
otherwise it calls `FindDogByType` with exactly that value and responds 500 if
the call fails and 200 with the `dogs` object holding the encoding of the
returned list if it succeeds (the nil list of no matches is written `null`). -/
theorem handleFindDog_contract (db : Firestore) (env : Env) (r : Request) :
    ((r.query.lookup "type" = none ∨ r.query.lookup "type" = some "") →
      (Http.handleFindDog db env ResponseWriter.fresh r).w.status = 404 ∧
      (Http.handleFindDog db env ResponseWriter.fresh r).calls = []) ∧
    (∀ t, r.query.lookup "type" = some t → t ≠ "" →
      (Http.handleFindDog db env ResponseWriter.fresh r).calls = [Call.FindDogByType t] ∧
      (∀ err, FindDogByType db env t = Except.error err →
        (Http.handleFindDog db env ResponseWriter.fresh r).w.status = 500) ∧
      (∀ dogs, FindDogByType db env t = Except.ok dogs →
        (Http.handleFindDog db env ResponseWriter.fresh r).w.status = 200 ∧
        (Http.handleFindDog db env ResponseWriter.fresh r).w.body =
          "\x7b\"dogs\":" ++ marshalDogs dogs ++ "\x7d" ++ "\n")) := by
  refine ⟨?_, ?_⟩
  · intro hq
    have hget : queryGet r.query "type" = "" := by
      rcases hq with h | h <;> simp [queryGet, h]
    simp [Http.handleFindDog, hget, Http.respond_status, fresh_wroteHeader, StatusNotFound]
  · intro t hq hne
    have hget : queryGet r.query "type" = t := by simp [queryGet, hq]
    cases hres : FindDogByType db env t with
    | error e =>
      have hserved : Http.handleFindDog db env ResponseWriter.fresh r =
          ⟨Http.respond ResponseWriter.fresh none StatusInternalServerError, db,
            [Call.FindDogByType t]⟩ := by
        simp [Http.handleFindDog, hget, hne, hres]
      rw [hserved]
      refine ⟨rfl, ?_, ?_⟩
      · intro err _
        simp [Http.respond_status, fresh_wroteHeader, StatusInternalServerError]
      · intro dogs hd
        simp at hd
    | ok byType =>
      have hserved : Http.handleFindDog db env ResponseWriter.fresh r =
          ⟨Http.respond ResponseWriter.fresh (some (Payload.DogTypesResponse byType)) StatusOK,
            db, [Call.FindDogByType t]⟩ := by
        simp [Http.handleFindDog, hget, hne, hres]
      rw [hserved]
      refine ⟨rfl, ?_, ?_⟩
      · intro err he
        simp at he
      · intro dogs hd
        simp only [Except.ok.injEq] at hd
        subst hd
        refine ⟨?_, ?_⟩
        · simp [Http.respond_status, fresh_wroteHeader, StatusOK]
        · rw [Http.respond_body_some ResponseWriter.fresh (Payload.DogTypesResponse byType)
            StatusOK ("\x7b\"dogs\":" ++ marshalDogs byType ++ "\x7d") rfl, fresh_body]
          simp

/-- The find handler on the tests' store: one dog for its type, `null` for a type
with no dog, 404 without a type. -/
theorem handleFindDog_contract_witness :
    (Http.handleFindDog oscarStore calm ResponseWriter.fresh
        (findRequest [("type", "Golden Doodle")])).w.body =
      "\x7b\"dogs\":[\x7b\"name\":\"Oscar\",\"age\":1,\"type\":\"Golden Doodle\"," ++
        "\"id\":\"OsckrOH9AABCDEFGHIJK\"," ++
        "\"created_timestamp\":\"2021-03-14T15:09:26.535Z\"\x7d]\x7d\n" ∧
    (Http.handleFindDog oscarStore calm ResponseWriter.fresh
        (findRequest [("type", "Poodle")])).w.body = "\x7b\"dogs\":null\x7d\n" ∧
    (Http.handleFindDog oscarStore calm ResponseWriter.fresh (findRequest [])).w.status = 404 :=
  ⟨((handleFindDog_contract oscarStore calm (findRequest [("type", "Golden Doodle")])).2
      "Golden Doodle" rfl (by decide)).2.2 [oscar.toDog calm] rfl |>.2,
    ((handleFindDog_contract oscarStore calm (findRequest [("type", "Poodle")])).2
      "Poodle" rfl (by decide)).2.2 [] rfl |>.2,
    ((handleFindDog_contract oscarStore calm (findRequest [])).1 (Or.inl rfl)).1⟩

/-- The get handler's response to a service error other than the sentinel. -/
theorem handleGetDog_failure (db : Firestore) (env : Env) (r : Request) (dogID : String)
    (e : Error) (hvar : r.vars.lookup "dogID" = some dogID)
    (hres : GetDogByID db env dogID = Except.error e) (hne : e ≠ Error.ErrDogNotFound) :
    (Http.handleGetDog db env ResponseWriter.fresh r).w =
      Http.respond ResponseWriter.fresh none StatusInternalServerError := by
  simp [Http.handleGetDog, hvar, hres, hne]

/-- The find handler's response to a service error. -/
theorem handleFindDog_failure (db : Firestore) (env : Env) (r : Request) (e : Error)
    (hres : FindDogByType db env (queryGet r.query "type") = Except.error e) :
    (Http.handleFindDog db env ResponseWriter.fresh r).w =
      Http.respond ResponseWriter.fresh none
        (if queryGet r.query "type" = "" then StatusNotFound
          else StatusInternalServerError) := by
  by_cases hq : queryGet r.query "type" = ""
  · simp [Http.handleFindDog, hq]
  · simp [Http.handleFindDog, hq, hres]

/-- The create handler's response to a service error: it depends on the request
alone. -/
theorem handleCreateDog_failure (db db1 : Firestore) (env : Env) (r : Request) (e : Error)
    (hres : CreateDog db env (jsonDecode r.body ⟨"", 0, ""⟩).1 = (Except.error e, db1)) :
    (Http.handleCreateDog db env ResponseWriter.fresh r).w =
      Http.respond
        (if (jsonDecode r.body ⟨"", 0, ""⟩).2 ≠ none then
          Http.respond ResponseWriter.fresh none StatusBadRequest else ResponseWriter.fresh)
        none
        (if (jsonDecode r.body ⟨"", 0, ""⟩).1.Name = "" ∨
            (jsonDecode r.body ⟨"", 0, ""⟩).1.Typ = "" then StatusBadRequest
          else StatusInternalServerError) := by
  by_cases hempty : (jsonDecode r.body ⟨"", 0, ""⟩).1.Name = "" ∨
      (jsonDecode r.body ⟨"", 0, ""⟩).1.Typ = ""
  · simp only [Http.handleCreateDog, Http.decode]
    rw [if_pos hempty, if_pos hempty]
  · simp only [Http.handleCreateDog, Http.decode]
    rw [if_neg hempty, if_neg hempty, hres]

/-- When a response with data ends with status 500, that status was either passed
to `respond` or written before. -/
theorem respond_data_status (w : ResponseWriter) (d : Payload) (status : Nat)
    (h : (Http.respond w (some d) status).status = 500) :
    status = 500 ∨ (w.wroteHeader = true ∧ w.status = 500) := by
  rw [Http.respond_status] at h
  cases hw : w.wroteHeader with
  | false =>
    left
    simpa [hw] using h
  | true =>
    right
    exact ⟨rfl, by simpa [hw] using h⟩

/-- The writer the create handler holds after decoding has an empty body, and if
its status line is written the status is 400. -/
theorem afterDecode_writer (flag : Prop) [Decidable flag] :
    (if flag then Http.respond ResponseWriter.fresh none StatusBadRequest
        else ResponseWriter.fresh).body = "" ∧
      ((if flag then Http.respond ResponseWriter.fresh none StatusBadRequest
        else ResponseWriter.fresh).wroteHeader = true →
        (if flag then Http.respond ResponseWriter.fresh none StatusBadRequest
          else ResponseWriter.fresh).status = 400) := by
  by_cases hf : flag
  · simp only [hf, if_true]
    exact ⟨rfl, fun _ => rfl⟩
  · simp only [hf, if_false]
    refine ⟨rfl, ?_⟩
    intro h
    simp [fresh_wroteHeader] at h

/-- C9: the request layer does not leak error text.  For each of the three
handlers and every request, two service errors (for the get handler: two errors
other than `ErrDogNotFound`) produce the same response, whatever the errors, the
stores and the environments they come from; and the body of every response with
status 500 is empty. -/
theorem responses_hide_error_text :
    (∀ (db1 db2 : Firestore) (env1 env2 : Env) (r : Request) (dogID : String) (e1 e2 : Error),
      r.vars.lookup "dogID" = some dogID →
      GetDogByID db1 env1 dogID = Except.error e1 →
      GetDogByID db2 env2 dogID = Except.error e2 →
      e1 ≠ Error.ErrDogNotFound → e2 ≠ Error.ErrDogNotFound →
      (Http.handleGetDog db1 env1 ResponseWriter.fresh r).w =
        (Http.handleGetDog db2 env2 ResponseWriter.fresh r).w) ∧
    (∀ (db1 db2 : Firestore) (env1 env2 : Env) (r : Request) (e1 e2 : Error),
      FindDogByType db1 env1 (queryGet r.query "type") = Except.error e1 →
      FindDogByType db2 env2 (queryGet r.query "type") = Except.error e2 →
      (Http.handleFindDog db1 env1 ResponseWriter.fresh r).w =
        (Http.handleFindDog db2 env2 ResponseWriter.fresh r).w) ∧
    (∀ (db1 db2 s1 s2 : Firestore) (env1 env2 : Env) (r : Request) (e1 e2 : Error),
      CreateDog db1 env1 (jsonDecode r.body ⟨"", 0, ""⟩).1 = (Except.error e1, s1) →
      CreateDog db2 env2 (jsonDecode r.body ⟨"", 0, ""⟩).1 = (Except.error e2, s2) →
      (Http.handleCreateDog db1 env1 ResponseWriter.fresh r).w =
        (Http.handleCreateDog db2 env2 ResponseWriter.fresh r).w) ∧
    (∀ (db : Firestore) (env : Env) (r : Request),
      ((Http.handleGetDog db env ResponseWriter.fresh r).w.status = 500 →
        (Http.handleGetDog db env ResponseWriter.fresh r).w.body = "") ∧
      ((Http.handleFindDog db env ResponseWriter.fresh r).w.status = 500 →
        (Http.handleFindDog db env ResponseWriter.fresh r).w.body = "") ∧
      ((Http.handleCreateDog db env ResponseWriter.fresh r).w.status = 500 →
        (Http.handleCreateDog db env ResponseWriter.fresh r).w.body = "")) := by
  refine ⟨?_, ?_, ?_, ?_⟩
  · intro db1 db2 env1 env2 r dogID e1 e2 hvar h1 h2 hn1 hn2
    rw [handleGetDog_failure db1 env1 r dogID e1 hvar h1 hn1,
      handleGetDog_failure db2 env2 r dogID e2 hvar h2 hn2]
  · intro db1 db2 env1 env2 r e1 e2 h1 h2
    rw [handleFindDog_failure db1 env1 r e1 h1, handleFindDog_failure db2 env2 r e2 h2]
  · intro db1 db2 s1 s2 env1 env2 r e1 e2 h1 h2
    rw [handleCreateDog_failure db1 s1 env1 r e1 h1, handleCreateDog_failure db2 s2 env2 r e2 h2]
  · intro db env r
    refine ⟨?_, ?_, ?_⟩
    · intro hs
      unfold Http.handleGetDog at hs ⊢
      cases hv : r.vars.lookup "dogID" with
      | none => simp [Http.respond_body_none, fresh_body]
      | some dogID =>
        simp only [hv] at hs ⊢
        cases hres : GetDogByID db env dogID with
        | error e =>
          simp only [hres]
          split <;> simp [Http.respond_body_none, fresh_body]
        | ok dog =>
          simp only [hres] at hs
          simp [Http.respond_status, fresh_wroteHeader, StatusOK] at hs
    · intro hs
      unfold Http.handleFindDog at hs ⊢
      by_cases hq : queryGet r.query "type" = ""
      · simp [hq, Http.respond_body_none, fresh_body]
      · simp only [hq, if_false] at hs ⊢
        cases hres : FindDogByType db env (queryGet r.query "type") with
        | error e => simp [Http.respond_body_none, fresh_body]
        | ok dogs =>
          simp only [hres] at hs
          simp [Http.respond_status, fresh_wroteHeader, StatusOK] at hs
    · intro hs
      have hw := afterDecode_writer ((Http.decode r ⟨"", 0, ""⟩).2 ≠ none)
      simp only [Http.handleCreateDog] at hs ⊢
      by_cases hempty : (Http.decode r ⟨"", 0, ""⟩).1.Name = "" ∨
          (Http.decode r ⟨"", 0, ""⟩).1.Typ = ""
      · rw [if_pos hempty]
        rw [Http.respond_body_none]
        exact hw.1
      · rw [if_neg hempty] at hs ⊢
        split at hs
        · simp only [Http.respond_body_none]
          exact hw.1
        · exfalso
          rcases respond_data_status _ _ _ hs with h | ⟨h1, h2⟩
          · simp [StatusOK] at h
          · have := hw.2 h1
            rw [this] at h2
            simp at h2

/-- An error of the loop of `FindDogByType` wraps the decoding error of one of
the snapshots. -/
theorem decodeAll_error (docs : List Document) (acc : List Dog) (err : Error)
    (h : decodeAll docs acc = Except.error err) :
    ∃ doc cause, doc ∈ docs ∧ doc.DataTo Dog.zero = Except.error cause ∧
      err = Error.Errorf "snapshot.DataTo(): %w" [] cause := by
  induction docs generalizing acc with
  | nil => simp [decodeAll] at h
  | cons d rest ih =>
    unfold decodeAll at h
    cases hd : d.DataTo Dog.zero with
    | error e =>
      simp only [hd, Except.error.injEq] at h
      exact ⟨d, e, List.mem_cons_self _ _, hd, h.symm⟩
    | ok dog =>
      simp only [hd] at h
      obtain ⟨doc, cause, hmem, hdec, herr⟩ := ih _ h
      exact ⟨doc, cause, List.mem_cons_of_mem _ hmem, hdec, herr⟩

/-- Where the errors of the three operations come from: the sentinel from a read
that reports not-found and from nowhere else, every other error from the store
error it wraps. -/
theorem service_errors_origin :
    (∀ (db : Firestore) (env : Env) (id : String),
      GetDogByID db env id = Except.error Error.ErrDogNotFound ↔
        ∃ cause, db.Get env.fault (docPath id) = Except.error cause ∧
          statusCode (some cause) = Code.NotFound) ∧
    (∀ (db : Firestore) (env : Env) (request : CreateDogRequest),
      (CreateDog db env request).1 ≠ Except.error Error.ErrDogNotFound) ∧
    (∀ (db : Firestore) (env : Env) (t : String),
      FindDogByType db env t ≠ Except.error Error.ErrDogNotFound) ∧
    (∀ (db : Firestore) (env : Env) (id : String) (err : Error),
      GetDogByID db env id = Except.error err → err ≠ Error.ErrDogNotFound →
      ∃ cause, err.unwrap = some cause ∧
        (db.Get env.fault (docPath id) = Except.error cause ∨
          ∃ doc, db.Get env.fault (docPath id) = Except.ok doc ∧
            doc.DataTo Dog.zero = Except.error cause)) ∧
    (∀ (db : Firestore) (env : Env) (t : String) (err : Error),
      FindDogByType db env t = Except.error err →
      ∃ cause, err.unwrap = some cause ∧
        (db.WhereType env.fault t = Except.error cause ∨
          ∃ all doc, db.WhereType env.fault t = Except.ok all ∧ doc ∈ all ∧
            doc.DataTo Dog.zero = Except.error cause)) ∧
    (∀ (db : Firestore) (env : Env) (request : CreateDogRequest) (err : Error),
      (CreateDog db env request).1 = Except.error err →
      ∃ cause, err.unwrap = some cause ∧
        (db.Create env.fault env.now (uniqueID env.entropy)
          ⟨request.Name, request.Age, request.Typ, uniqueID env.entropy, Time.zero⟩).1 =
            Except.error cause) := by
  refine ⟨?_, ?_, ?_, ?_, ?_, ?_⟩
  · intro db env id
    unfold GetDogByID
    change (match Firestore.Get db env.fault (docPath id) with
      | Except.error err => _
      | Except.ok docRefSnap => _) = _ ↔ _
    cases hget : db.Get env.fault (docPath id) with
    | error e =>
      by_cases hc : statusCode (some e) = Code.NotFound
      · simp [hc]
      · simp [hc]
    | ok doc =>
      cases hdec : doc.DataTo Dog.zero <;> simp [hdec]
  · intro db env request
    simp only [CreateDog]
    split <;> simp
  · intro db env t
    unfold FindDogByType
    cases hq : db.WhereType env.fault t with
    | error e => simp
    | ok all =>
      simp only []
      intro h
      obtain ⟨_, _, _, _, herr⟩ := decodeAll_error all [] _ h
      simp at herr
  · intro db env id err h hne
    unfold GetDogByID at h
    change (match Firestore.Get db env.fault (docPath id) with
      | Except.error err => _
      | Except.ok docRefSnap => _) = _ at h
    cases hget : db.Get env.fault (docPath id) with
    | error e =>
      simp only [hget] at h
      by_cases hc : statusCode (some e) = Code.NotFound
      · simp only [hc, if_true, Except.error.injEq] at h
        exact absurd h.symm hne
      · simp only [hc, if_false, Except.error.injEq] at h
        exact ⟨e, by rw [← h]; rfl, Or.inl rfl⟩
    | ok doc =>
      simp only [hget] at h
      cases hdec : doc.DataTo Dog.zero with
      | error e =>
        simp only [hdec, Except.error.injEq] at h
        exact ⟨e, by rw [← h]; rfl, Or.inr ⟨doc, rfl, hdec⟩⟩
      | ok dog => simp [hdec] at h
  · intro db env t err h
    unfold FindDogByType at h
    cases hq : db.WhereType env.fault t with
    | error e =>
      simp only [hq, Except.error.injEq] at h
      exact ⟨e, by rw [← h]; rfl, Or.inl rfl⟩
    | ok all =>
      simp only [hq] at h
      obtain ⟨doc, cause, hmem, hdec, herr⟩ := decodeAll_error all [] err h
      exact ⟨cause, by rw [herr]; rfl, Or.inr ⟨all, doc, rfl, hmem, hdec⟩⟩
  · intro db env request err h
    simp only [CreateDog] at h
    split at h
    · rename_i e db1 heq
      simp only [Except.error.injEq] at h
      exact ⟨e, by rw [← h]; rfl, by rw [heq]⟩
    · simp at h

/-- A failed read that does not report not-found is returned wrapped. -/
theorem getDogByID_of_read_error (db : Firestore) (env : Env) (id : String)
    (cause : StoreError) (hget : db.Get env.fault (docPath id) = Except.error cause)
    (hcode : statusCode (some cause) ≠ Code.NotFound) :
    GetDogByID db env id =
      Except.error (Error.Errorf "ds.db.Doc(%q): %w" [docPath id] cause) := by
  unfold GetDogByID
  change (match Firestore.Get db env.fault (docPath id) with
    | Except.error err => _
    | Except.ok docRefSnap => _) = _
  rw [hget]
  simp [hcode, docPath]

/-- A read that reports not-found is returned as the sentinel. -/
theorem getDogByID_of_read_notFound (db : Firestore) (env : Env) (id : String)
    (cause : StoreError) (hget : db.Get env.fault (docPath id) = Except.error cause)
    (hcode : statusCode (some cause) = Code.NotFound) :
    GetDogByID db env id = Except.error Error.ErrDogNotFound := by
  unfold GetDogByID
  change (match Firestore.Get db env.fault (docPath id) with
    | Except.error err => _
    | Except.ok docRefSnap => _) = _
  rw [hget]
  simp [hcode]

/-- A document that was read and cannot be decoded is returned as the wrapped
decoding error. -/
theorem getDogByID_of_decode_error (db : Firestore) (env : Env) (id : String)
    (doc : Document) (cause : StoreError)
    (hget : db.Get env.fault (docPath id) = Except.ok doc)
    (hdec : doc.DataTo Dog.zero = Except.error cause) :
    GetDogByID db env id = Except.error (Error.Errorf "docRefSnap.DataTo(): %w" [] cause) := by
  unfold GetDogByID
  change (match Firestore.Get db env.fault (docPath id) with
    | Except.error err => _
    | Except.ok docRefSnap => _) = _
  rw [hget]
  simp [hdec]

/-- A failed query is returned wrapped. -/
theorem findDogByType_of_query_error (db : Firestore) (env : Env) (t : String)
    (cause : StoreError) (hq : db.WhereType env.fault t = Except.error cause) :
    FindDogByType db env t = Except.error (Error.Errorf "ds.db.Collection(): %w" [] cause) := by
  unfold FindDogByType
  rw [hq]

/-- When one of the snapshots cannot be decoded the loop of `FindDogByType`
returns the wrapped decoding error of one of them. -/
theorem decodeAll_of_undecodable (docs : List Document) (acc : List Dog)
    (h : ∃ doc ∈ docs, ∃ cause, doc.DataTo Dog.zero = Except.error cause) :
    ∃ doc ∈ docs, ∃ cause, doc.DataTo Dog.zero = Except.error cause ∧
      decodeAll docs acc = Except.error (Error.Errorf "snapshot.DataTo(): %w" [] cause) := by
  induction docs generalizing acc with
  | nil =>
    obtain ⟨doc, hmem, _⟩ := h
    simp at hmem
  | cons d rest ih =>
    cases hd : d.DataTo Dog.zero with
    | error e =>
      refine ⟨d, List.mem_cons_self _ _, e, hd, ?_⟩
      unfold decodeAll
      simp [hd]
    | ok dog =>
      have hrest : ∃ doc ∈ rest, ∃ cause, doc.DataTo Dog.zero = Except.error cause := by
        obtain ⟨doc, hmem, cause, hc⟩ := h
        rcases List.mem_cons.mp hmem with heq | hin
        · rw [heq, hd] at hc
          simp at hc
        · exact ⟨doc, hin, cause, hc⟩
      obtain ⟨doc, hmem, cause, hc, hres⟩ := ih (acc ++ [dog]) hrest
      refine ⟨doc, List.mem_cons_of_mem _ hmem, cause, hc, ?_⟩
      unfold decodeAll
      simp only [hd]
      exact hres

/-- A failed write is returned wrapped, and nothing is written. -/
theorem createDog_of_write_error (db : Firestore) (env : Env) (request : CreateDogRequest)
    (cause : StoreError)
    (hc : (db.Create env.fault env.now (uniqueID env.entropy)
      ⟨request.Name, request.Age, request.Typ, uniqueID env.entropy, Time.zero⟩).1 =
        Except.error cause) :
    (CreateDog db env request).1 = Except.error (Error.Errorf "doc.Create(): %w" [] cause) := by
  simp only [CreateDog]
  split
  · rename_i e db1 heq
    rw [heq] at hc
    simp only [Except.error.injEq] at hc
    rw [hc]
  · rename_i u db1 heq
    rw [heq] at hc
    simp at hc

/-- C10: `ErrDogNotFound` is returned only by `GetDogByID`, and exactly when the
store's document read reports a not-found status.  `CreateDog` and
`FindDogByType` never return it, whatever the store fails with, a not-found
status included.  Every other failure of the three operations is returned as a
wrapped error, different from `ErrDogNotFound`, that unwraps to the store error
underneath: a failed read, query or write makes the operation fail with the
wrapped error of that call, and a stored document that cannot be decoded makes
`GetDogByID` and `FindDogByType` fail with the wrapped decoding error; and every
error an operation returns arises in one of these ways. -/
theorem errDogNotFound_only_on_missing_read :
    (∀ (db : Firestore) (env : Env) (id : String),
      GetDogByID db env id = Except.error Error.ErrDogNotFound ↔
        ∃ cause, db.Get env.fault (docPath id) = Except.error cause ∧
          statusCode (some cause) = Code.NotFound) ∧
    (∀ (db : Firestore) (env : Env) (request : CreateDogRequest),
      (CreateDog db env request).1 ≠ Except.error Error.ErrDogNotFound) ∧
    (∀ (db : Firestore) (env : Env) (t : String),
      FindDogByType db env t ≠ Except.error Error.ErrDogNotFound) ∧
    (∀ (db : Firestore) (env : Env) (id : String) (cause : StoreError),
      db.Get env.fault (docPath id) = Except.error cause →
      statusCode (some cause) ≠ Code.NotFound →
      GetDogByID db env id =
        Except.error (Error.Errorf "ds.db.Doc(%q): %w" [docPath id] cause)) ∧
    (∀ (db : Firestore) (env : Env) (id : String) (doc : Document) (cause : StoreError),
      db.Get env.fault (docPath id) = Except.ok doc →
      doc.DataTo Dog.zero = Except.error cause →
      GetDogByID db env id =
        Except.error (Error.Errorf "docRefSnap.DataTo(): %w" [] cause)) ∧
    (∀ (db : Firestore) (env : Env) (t : String) (cause : StoreError),
      db.WhereType env.fault t = Except.error cause →
      FindDogByType db env t =
        Except.error (Error.Errorf "ds.db.Collection(): %w" [] cause)) ∧
    (∀ (db : Firestore) (env : Env) (t : String) (all : List Document),
      db.WhereType env.fault t = Except.ok all →
      (∃ doc ∈ all, ∃ cause, doc.DataTo Dog.zero = Except.error cause) →
      ∃ doc ∈ all, ∃ cause, doc.DataTo Dog.zero = Except.error cause ∧
        FindDogByType db env t =
          Except.error (Error.Errorf "snapshot.DataTo(): %w" [] cause)) ∧
    (∀ (db : Firestore) (env : Env) (request : CreateDogRequest) (cause : StoreError),
      (db.Create env.fault env.now (uniqueID env.entropy)
        ⟨request.Name, request.Age, request.Typ, uniqueID env.entropy, Time.zero⟩).1 =
          Except.error cause →
      (CreateDog db env request).1 =
        Except.error (Error.Errorf "doc.Create(): %w" [] cause)) ∧
    (∀ (db : Firestore) (env : Env) (e : StoreError), env.fault = some e →
      (∀ t, FindDogByType db env t =
        Except.error (Error.Errorf "ds.db.Collection(): %w" [] e)) ∧
      (∀ request, CreateDog db env request =
        (Except.error (Error.Errorf "doc.Create(): %w" [] e), db)) ∧
      (∀ id, isDocPath (docPath id) = true → statusCode (some e) ≠ Code.NotFound →
        GetDogByID db env id =
          Except.error (Error.Errorf "ds.db.Doc(%q): %w" [docPath id] e)) ∧
      (∀ id, isDocPath (docPath id) = true → statusCode (some e) = Code.NotFound →
        GetDogByID db env id = Except.error Error.ErrDogNotFound)) ∧
    (∀ (format : String) (args : List String) (cause : StoreError),
      Error.Errorf format args cause ≠ Error.ErrDogNotFound ∧
      (Error.Errorf format args cause).unwrap = some cause) ∧
    (∀ (db : Firestore) (env : Env) (id : String) (err : Error),
      GetDogByID db env id = Except.error err → err ≠ Error.ErrDogNotFound →
      ∃ cause, err.unwrap = some cause ∧
        (db.Get env.fault (docPath id) = Except.error cause ∨
          ∃ doc, db.Get env.fault (docPath id) = Except.ok doc ∧
            doc.DataTo Dog.zero = Except.error cause)) ∧
    (∀ (db : Firestore) (env : Env) (t : String) (err : Error),
      FindDogByType db env t = Except.error err →
      ∃ cause, err.unwrap = some cause ∧
        (db.WhereType env.fault t = Except.error cause ∨
          ∃ all doc, db.WhereType env.fault t = Except.ok all ∧ doc ∈ all ∧
            doc.DataTo Dog.zero = Except.error cause)) ∧
    (∀ (db : Firestore) (env : Env) (request : CreateDogRequest) (err : Error),
      (CreateDog db env request).1 = Except.error err →
      ∃ cause, err.unwrap = some cause ∧
        (db.Create env.fault env.now (uniqueID env.entropy)
          ⟨request.Name, request.Age, request.Typ, uniqueID env.entropy, Time.zero⟩).1 =
            Except.error cause) := by
  obtain ⟨h1, h2, h3, h4, h5, h6⟩ := service_errors_origin
  refine ⟨h1, h2, h3, getDogByID_of_read_error, getDogByID_of_decode_error,
    findDogByType_of_query_error, ?_, createDog_of_write_error, ?_, ?_, h4, h5, h6⟩
  · intro db env t all hq hbad
    obtain ⟨doc, hmem, cause, hdec, hres⟩ := decodeAll_of_undecodable all [] hbad
    refine ⟨doc, hmem, cause, hdec, ?_⟩
    unfold FindDogByType
    rw [hq]
    exact hres
  · intro db env e hf
    refine ⟨?_, ?_, ?_, ?_⟩
    · intro t
      apply findDogByType_of_query_error
      simp [Firestore.WhereType, hf]
    · intro request
      simp [CreateDog, Firestore.Create, hf]
    · intro id hpath hcode
      apply getDogByID_of_read_error _ _ _ _ _ hcode
      simp [Firestore.Get, hpath, hf]
    · intro id hpath hcode
      apply getDogByID_of_read_notFound _ _ _ e _ hcode
      simp [Firestore.Get, hpath, hf]
  · intro format args cause
    exact ⟨by simp, rfl⟩

theorem errDogNotFound_only_on_missing_read_witness :
    GetDogByID oscarStore outage "999" =
      Except.error (Error.Errorf "ds.db.Doc(%q): %w" [docPath "999"]
        (StoreError.rpc Code.Unavailable "connection refused")) ∧
    GetDogByID strayStore calm "stray" =
      Except.error (Error.Errorf "docRefSnap.DataTo(): %w" []
        (StoreError.client
          "gotoproduction.Dog.Age: firestore: cannot set type int to string")) ∧
    FindDogByType oscarStore missingDatabase "Poodle" =
      Except.error (Error.Errorf "ds.db.Collection(): %w" []
        (StoreError.rpc Code.NotFound "database not found")) ∧
    CreateDog oscarStore missingDatabase oscar =
      (Except.error (Error.Errorf "doc.Create(): %w" []
        (StoreError.rpc Code.NotFound "database not found")), oscarStore) ∧
    GetDogByID oscarStore missingDatabase "999" = Except.error Error.ErrDogNotFound :=
  ⟨errDogNotFound_only_on_missing_read.2.2.2.1 oscarStore outage "999"
      (StoreError.rpc Code.Unavailable "connection refused") rfl (by decide),
    errDogNotFound_only_on_missing_read.2.2.2.2.1 strayStore calm "stray"
      ⟨some (Value.string "Rex"), some (Value.string "three"), some (Value.string "Poodle"),
        some (Value.string "stray"), none⟩
      (StoreError.client "gotoproduction.Dog.Age: firestore: cannot set type int to string")
      rfl rfl,
    ((errDogNotFound_only_on_missing_read.2.2.2.2.2.2.2.2.1 oscarStore missingDatabase
      (StoreError.rpc Code.NotFound "database not found") rfl).1) "Poodle",
    ((errDogNotFound_only_on_missing_read.2.2.2.2.2.2.2.2.1 oscarStore missingDatabase
      (StoreError.rpc Code.NotFound "database not found") rfl).2.1) oscar,
    ((errDogNotFound_only_on_missing_read.2.2.2.2.2.2.2.2.1 oscarStore missingDatabase
      (StoreError.rpc Code.NotFound "database not found") rfl).2.2.2) "999" rfl rfl⟩

/-! ## Properties of the record service, continued -/

/-- Reading a path other than that of an appended document is not affected by
the append. -/
theorem get_append_other (docs : List (String × Document)) (id other : String) (d : Document)
    (fault : Option StoreError) (hne : other ≠ id) :
    Firestore.Get { dogs := docs ++ [(id, d)] } fault (docPath other) =
      Firestore.Get { dogs := docs } fault (docPath other) := by
  unfold Firestore.Get
  cases hp : isDocPath (docPath other) with
  | false => rfl
  | true =>
    simp only [if_true]
    cases fault with
    | some e => rfl
    | none =>
      have hnew : (docPath id == docPath other) = false := by
        rw [docPath_beq]
        simpa using fun h => hne h.symm
      simp only [List.find?_append]
      cases hfind : docs.find? (fun kv => docPath kv.1 == docPath other) with
      | some kv => simp
      | none => simp [List.find?, hnew]

/-- The get and find handlers hand back the store they were given. -/
theorem readHandlers_db (db : Firestore) (env : Env) (w : ResponseWriter) (r : Request) :
    (Http.handleGetDog db env w r).db = db ∧ (Http.handleFindDog db env w r).db = db ∧
    (Cmd.handleGetDog db env w r).db = db ∧ (Cmd.handleFindDog db env w r).db = db := by
  refine ⟨?_, ?_, ?_, ?_⟩
  · unfold Http.handleGetDog
    split
    · rfl
    · split
      · split <;> rfl
      · rfl
  · unfold Http.handleFindDog
    simp only []
    split
    · rfl
    · split <;> rfl
  · unfold Cmd.handleGetDog
    split
    · rfl
    · split
      · split <;> rfl
      · rfl
  · unfold Cmd.handleFindDog
    simp only []
    split
    · rfl
    · split <;> rfl

/-- The create handler leaves the store as it was or appends one document. -/
theorem handleCreateDog_db (db : Firestore) (env : Env) (w : ResponseWriter) (r : Request) :
    (Http.handleCreateDog db env w r).db = db ∨
      ∃ id doc, (Http.handleCreateDog db env w r).db.dogs = db.dogs ++ [(id, doc)] := by
  simp only [Http.handleCreateDog]
  split
  · exact Or.inl rfl
  · split
    · rename_i e db1 heq
      exact Or.inl (createDog_error heq)
    · rename_i id db1 heq
      obtain ⟨_, _, _, hdb⟩ := createDog_ok heq
      exact Or.inr ⟨id, _, hdb⟩

/-- A run of `CreateDog` calls keeps every document the store held before. -/
theorem createAll_keeps (calls : List (Env × CreateDogRequest)) (db : Firestore)
    (kv : String × Document) (hkv : kv ∈ db.dogs) : kv ∈ (createAll db calls).1.dogs := by
  induction calls generalizing db with
  | nil => exact hkv
  | cons call rest ih =>
    unfold createAll
    cases hc : CreateDog db call.1 call.2 with
    | mk res db1 =>
      cases res with
      | error e =>
        simp only []
        have hdb := createDog_error hc
        subst hdb
        exact ih _ hkv
      | ok id =>
        simp only []
        obtain ⟨_, _, _, hdb⟩ := createDog_ok hc
        apply ih
        rw [hdb]
        exact List.mem_append_left _ hkv

/-- Serving a request keeps every document the store held before. -/
theorem serveHTTP_keeps (db : Firestore) (env : Env) (w : ResponseWriter) (req : HttpRequest)
    (kv : String × Document) (hkv : kv ∈ db.dogs) :
    kv ∈ (Http.ServeHTTP db env w req).db.dogs := by
  unfold Http.ServeHTTP
  split
  · exact hkv
  · rw [(readHandlers_db db env w _).2.1]
    exact hkv
  · rw [(readHandlers_db db env w _).1]
    exact hkv
  · rename_i vars _
    rcases handleCreateDog_db db env w ⟨vars, req.query, req.body⟩ with h | ⟨id, doc, h⟩
    · rw [h]
      exact hkv
    · rw [h]
      exact List.mem_append_left _ hkv
  · exact hkv
  · exact hkv

/-- C11: records are immutable after creation.  The get and find handlers (the
only callers of `GetDogByID` and `FindDogByType`, which make read calls only)
leave the store as it was; a successful `CreateDog` appends exactly one document,
under a key that was free, and every document stored before is still there,
unchanged and read back as before; a failed `CreateDog` leaves the store as it
was; and no run of `CreateDog` calls and no HTTP request removes or changes a
document the store holds. -/
theorem records_immutable :
    (∀ (db : Firestore) (env : Env) (w : ResponseWriter) (r : Request),
      (Http.handleGetDog db env w r).db = db ∧ (Http.handleFindDog db env w r).db = db ∧
      (Cmd.handleGetDog db env w r).db = db ∧ (Cmd.handleFindDog db env w r).db = db) ∧
    (∀ (db db1 : Firestore) (env : Env) (request : CreateDogRequest) (id : String),
      CreateDog db env request = (Except.ok id, db1) →
      (∃ doc, db1.dogs = db.dogs ++ [(id, doc)]) ∧
      (∀ kv ∈ db.dogs, kv.1 ≠ id) ∧
      db1.dogs.length = db.dogs.length + 1 ∧
      (∀ kv ∈ db.dogs, kv ∈ db1.dogs) ∧
      (∀ (env2 : Env) (other : String), other ≠ id →
        GetDogByID db1 env2 other = GetDogByID db env2 other)) ∧
    (∀ (db db1 : Firestore) (env : Env) (request : CreateDogRequest) (err : Error),
      CreateDog db env request = (Except.error err, db1) → db1 = db) ∧
    (∀ (db : Firestore) (calls : List (Env × CreateDogRequest)),
      ∀ kv ∈ db.dogs, kv ∈ (createAll db calls).1.dogs) ∧
    (∀ (db : Firestore) (env : Env) (w : ResponseWriter) (req : HttpRequest),
      ∀ kv ∈ db.dogs, kv ∈ (Http.ServeHTTP db env w req).db.dogs) := by
  refine ⟨readHandlers_db, ?_, ?_, ?_, ?_⟩
  · intro db db1 env request id h
    obtain ⟨_, _, hfree, hdb⟩ := createDog_ok h
    refine ⟨⟨_, hdb⟩, hfree, ?_, ?_, ?_⟩
    · rw [hdb]
      simp
    · intro kv hkv
      rw [hdb]
      exact List.mem_append_left _ hkv
    · intro env2 other hne
      unfold GetDogByID
      have hget : Firestore.Get db1 env2.fault (docPath other) =
          Firestore.Get db env2.fault (docPath other) := by
        have h1 : Firestore.Get db1 env2.fault (docPath other) =
            Firestore.Get { dogs := db1.dogs } env2.fault (docPath other) := rfl
        rw [h1, hdb]
        exact get_append_other db.dogs id other _ env2.fault hne
      change (match Firestore.Get db1 env2.fault (docPath other) with
        | Except.error err => _
        | Except.ok docRefSnap => _) = (match Firestore.Get db env2.fault (docPath other) with
        | Except.error err => _
        | Except.ok docRefSnap => _)
      rw [hget]
  · intro db db1 env request err h
    exact createDog_error h
  · intro db calls kv hkv
    exact createAll_keeps calls db kv hkv
  · intro db env w req kv hkv
    exact serveHTTP_keeps db env w req kv hkv

theorem records_immutable_witness :
    (∃ doc, oscarStore.dogs = emptyStore.dogs ++ [(uniqueID calm.entropy, doc)]) ∧
    (∀ kv ∈ emptyStore.dogs, kv.1 ≠ uniqueID calm.entropy) ∧
    oscarStore.dogs.length = emptyStore.dogs.length + 1 ∧
    (∀ kv ∈ emptyStore.dogs, kv ∈ oscarStore.dogs) ∧
    (∀ (env2 : Env) (other : String), other ≠ uniqueID calm.entropy →
      GetDogByID oscarStore env2 other = GetDogByID emptyStore env2 other) :=
  records_immutable.2.1 emptyStore oscarStore calm oscar (uniqueID calm.entropy) rfl

/-- C12: for every request, a successful `CreateDog` returns exactly the
identifier the key generator produced for the new document: it is the key under
which the record is persisted and the value of the record's field `id`; it does
not depend on the caller's request; and it has length 20, so it is not empty. -/
theorem createDog_returns_generated_key (db db1 : Firestore) (env : Env)
    (request : CreateDogRequest) (id : String)
    (h : CreateDog db env request = (Except.ok id, db1)) :
    id = uniqueID env.entropy ∧
    (∃ doc, db1.dogs = db.dogs ++ [(id, doc)] ∧ doc.id = some (Value.string id) ∧
      doc.DataTo Dog.zero = Except.ok ⟨request.Name, request.Age, request.Typ, id, env.now⟩) ∧
    (∀ other : CreateDogRequest, (CreateDog db env other).1 = Except.ok id) ∧
    id.length = 20 ∧ id ≠ "" := by
  obtain ⟨hf, hid, hfree, hdb⟩ := createDog_ok h
  refine ⟨hid, ⟨_, hdb, rfl, rfl⟩, ?_, ?_, ?_⟩
  · intro other
    have hany : db.dogs.any (fun kv => kv.1 == uniqueID env.entropy) = false := by
      rw [Bool.eq_false_iff]
      intro hany
      rw [List.any_eq_true] at hany
      obtain ⟨kv, hkv, heq⟩ := hany
      exact hfree kv hkv (by rw [hid]; simpa using heq)
    simp [CreateDog, Firestore.Create, hf, hany, hid]
  · rw [hid]
    exact uniqueID_length env.entropy
  · rw [hid]
    exact uniqueID_ne_empty env.entropy

theorem createDog_returns_generated_key_witness :
    uniqueID calm.entropy = uniqueID calm.entropy ∧
    (∃ doc, oscarStore.dogs = emptyStore.dogs ++ [(uniqueID calm.entropy, doc)] ∧
      doc.id = some (Value.string (uniqueID calm.entropy)) ∧
      doc.DataTo Dog.zero =
        Except.ok ⟨oscar.Name, oscar.Age, oscar.Typ, uniqueID calm.entropy, calm.now⟩) ∧
    (∀ other : CreateDogRequest,
      (CreateDog emptyStore calm other).1 = Except.ok (uniqueID calm.entropy)) ∧
    (uniqueID calm.entropy).length = 20 ∧ uniqueID calm.entropy ≠ "" :=
  createDog_returns_generated_key emptyStore oscarStore calm oscar (uniqueID calm.entropy) rfl

/-- `CreateDog` succeeds whenever the store answers and the generated key is
free: the request's fields play no part. -/
theorem createDog_no_validation (db : Firestore) (env : Env) (request : CreateDogRequest)
    (hf : env.fault = none) (hfree : ∀ kv ∈ db.dogs, kv.1 ≠ uniqueID env.entropy) :
    (CreateDog db env request).1 = Except.ok (uniqueID env.entropy) := by
  have hany : db.dogs.any (fun kv => kv.1 == uniqueID env.entropy) = false := by
    rw [Bool.eq_false_iff]
    intro hany
    rw [List.any_eq_true] at hany
    obtain ⟨kv, hkv, heq⟩ := hany
    exact hfree kv hkv (by simpa using heq)
  simp [CreateDog, Firestore.Create, hf, hany]

/-- C13: every record persisted as the result of a `POST /dogs` request has a
non-empty name and a non-empty type.  For every request body, decodable or not,
each call the create handler makes to the service is a `CreateDog` with a
non-empty name and a non-empty type, and a document it adds to the store holds
those as its name and type; `CreateDog` itself validates nothing and accepts
the request with empty name and type. -/
theorem handleCreateDog_never_empty (db : Firestore) (env : Env) (w : ResponseWriter)
    (r : Request) :
    (∀ call ∈ (Http.handleCreateDog db env w r).calls,
      ∃ request, call = Call.CreateDog request ∧ request.Name ≠ "" ∧ request.Typ ≠ "") ∧
    ((Http.handleCreateDog db env w r).db = db ∨
      ∃ id name typ age ts, name ≠ "" ∧ typ ≠ "" ∧
        (Http.handleCreateDog db env w r).db.dogs = db.dogs ++
          [(id, ⟨some (Value.string name), some (Value.int age), some (Value.string typ),
            some (Value.string id), some (Value.timestamp ts)⟩)]) ∧
    (∀ (db0 : Firestore) (env0 : Env), env0.fault = none →
      (∀ kv ∈ db0.dogs, kv.1 ≠ uniqueID env0.entropy) →
      (CreateDog db0 env0 ⟨"", 0, ""⟩).1 = Except.ok (uniqueID env0.entropy)) := by
  refine ⟨?_, ?_, ?_⟩
  · intro call hcall
    simp only [Http.handleCreateDog] at hcall
    by_cases hempty : (Http.decode r ⟨"", 0, ""⟩).1.Name = "" ∨
        (Http.decode r ⟨"", 0, ""⟩).1.Typ = ""
    · rw [if_pos hempty] at hcall
      simp at hcall
    · rw [if_neg hempty] at hcall
      have hname : (Http.decode r ⟨"", 0, ""⟩).1.Name ≠ "" := fun h => hempty (Or.inl h)
      have htyp : (Http.decode r ⟨"", 0, ""⟩).1.Typ ≠ "" := fun h => hempty (Or.inr h)
      split at hcall <;>
        · simp only [List.mem_singleton] at hcall
          exact ⟨_, hcall, hname, htyp⟩
  · simp only [Http.handleCreateDog]
    by_cases hempty : (Http.decode r ⟨"", 0, ""⟩).1.Name = "" ∨
        (Http.decode r ⟨"", 0, ""⟩).1.Typ = ""
    · rw [if_pos hempty]
      exact Or.inl rfl
    · rw [if_neg hempty]
      have hname : (Http.decode r ⟨"", 0, ""⟩).1.Name ≠ "" := fun h => hempty (Or.inl h)
      have htyp : (Http.decode r ⟨"", 0, ""⟩).1.Typ ≠ "" := fun h => hempty (Or.inr h)
      split
      · rename_i e db1 heq
        exact Or.inl (createDog_error heq)
      · rename_i id db1 heq
        right
        obtain ⟨_, _, _, hdb⟩ := createDog_ok heq
        exact ⟨id, _, _, _, _, hname, htyp, hdb⟩
  · intro db0 env0 hf hfree
    exact createDog_no_validation db0 env0 ⟨"", 0, ""⟩ hf hfree

/-! ## The two request layers -/

/-- C15: the two request layers are observationally equivalent.  For every
store, environment (hence every service outcome), response writer and request,
each uninstrumented handler of `cmd/dogs.go` leaves the same response writer
(status, headers, body), the same store and the same service calls with the
same arguments as the instrumented handler of `cmd/http/dogs.go`. -/
theorem layers_equivalent (db : Firestore) (env : Env) (w : ResponseWriter) (r : Request) :
    Cmd.handleGetDog db env w r = Http.handleGetDog db env w r ∧
    Cmd.handleFindDog db env w r = Http.handleFindDog db env w r ∧
    Cmd.handleCreateDog db env w r = Http.handleCreateDog db env w r ∧
    (Cmd.handleGetDog db env w r).w.status = (Http.handleGetDog db env w r).w.status ∧
    (Cmd.handleGetDog db env w r).w.body = (Http.handleGetDog db env w r).w.body ∧
    (Cmd.handleGetDog db env w r).calls = (Http.handleGetDog db env w r).calls ∧
    (Cmd.handleFindDog db env w r).w.status = (Http.handleFindDog db env w r).w.status ∧
    (Cmd.handleFindDog db env w r).w.body = (Http.handleFindDog db env w r).w.body ∧
    (Cmd.handleFindDog db env w r).calls = (Http.handleFindDog db env w r).calls ∧
    (Cmd.handleCreateDog db env w r).w.status = (Http.handleCreateDog db env w r).w.status ∧
    (Cmd.handleCreateDog db env w r).w.body = (Http.handleCreateDog db env w r).w.body ∧
    (Cmd.handleCreateDog db env w r).calls = (Http.handleCreateDog db env w r).calls := by
  have hrespond : ∀ (w0 : ResponseWriter) (data : Option Payload) (status : Nat),
      Cmd.respond w0 data status = Http.respond w0 data status := fun _ _ _ => rfl
  have hget : Cmd.handleGetDog db env w r = Http.handleGetDog db env w r := by
    unfold Cmd.handleGetDog Http.handleGetDog
    simp only [hrespond]
  have hfind : Cmd.handleFindDog db env w r = Http.handleFindDog db env w r := by
    unfold Cmd.handleFindDog Http.handleFindDog
    simp only [hrespond]
  have hcreate : Cmd.handleCreateDog db env w r = Http.handleCreateDog db env w r := by
    unfold Cmd.handleCreateDog Http.handleCreateDog Cmd.decode Http.decode
    simp only [hrespond]
  refine ⟨hget, hfind, hcreate, ?_, ?_, ?_, ?_, ?_, ?_, ?_, ?_, ?_⟩
  · rw [hget]
  · rw [hget]
  · rw [hget]
  · rw [hfind]
  · rw [hfind]
  · rw [hfind]
  · rw [hcreate]
  · rw [hcreate]
  · rw [hcreate]

/-! ## Properties of the router -/

/-- The characters of the path `/dogs/x`. -/
theorem dogsPath_toList (x : String) :
    ("/dogs/" ++ x).toList = '/' :: 'd' :: 'o' :: 'g' :: 's' :: '/' :: x.toList := by
  simp [String.toList, String.data_append]

/-- A path `/dogs/x` whose last element `x` is a proper name (not empty, without
slash, neither `.` nor `..`) is in canonical form. -/
theorem cleanPath_dogs (x : String) (hne : x ≠ "") (hslash : '/' ∉ x.toList)
    (hdot : x ≠ ".") (hdots : x ≠ "..") : cleanPath ("/dogs/" ++ x) = "/dogs/" ++ x := by
  have hx0 : x.toList ≠ [] := fun h => hne (String.ext h)
  have hx1 : x.toList ≠ ['.'] := fun h => hdot (String.ext h)
  have hx2 : x.toList ≠ ['.', '.'] := fun h => hdots (String.ext h)
  have hsplit : splitSlash ('/' :: 'd' :: 'o' :: 'g' :: 's' :: '/' :: x.toList) =
      [[], ['d', 'o', 'g', 's'], x.toList] := by
    have h1 := splitSlash_append [] ('d' :: 'o' :: 'g' :: 's' :: '/' :: x.toList) (by simp)
    have h2 := splitSlash_append ['d', 'o', 'g', 's'] x.toList (by decide)
    simp only [List.nil_append, List.cons_append] at h1 h2
    rw [h1, h2, splitSlash_noSlash x.toList hslash]
  have hlast : ('/' :: 'd' :: 'o' :: 'g' :: 's' :: '/' :: x.toList).getLast? ≠ some '/' := by
    intro h
    have hmem : '/' ∈ x.toList := by
      have h3 : ('/' :: 'd' :: 'o' :: 'g' :: 's' :: '/' :: x.toList).getLast? =
          x.toList.getLast? := by
        cases hxl : x.toList with
        | nil => exact absurd hxl hx0
        | cons c cs => simp [List.getLast?_cons_cons]
      rw [h3] at h
      exact List.mem_of_getLast?_eq_some h
    exact hslash hmem
  unfold cleanPath
  rw [dogsPath_toList]
  simp only [List.head?_cons, if_true]
  have hclean : pathClean ('/' :: 'd' :: 'o' :: 'g' :: 's' :: '/' :: x.toList) =
      '/' :: 'd' :: 'o' :: 'g' :: 's' :: '/' :: x.toList := by
    unfold pathClean
    rw [hsplit]
    have hd0 : x.data ≠ [] := hx0
    have hd1 : x.data ≠ ['.'] := hx1
    have hd2 : x.data ≠ ['.', '.'] := hx2
    simp [cleanElems, hd0, hd1, hd2, List.intercalate]
  rw [hclean]
  simp only [hlast, false_and, if_false]
  apply String.ext
  simp [String.data_append]

/-- A template of literal text matches that text and nothing else. -/
theorem matchSegments_lit (t cs : List Char) :
    matchSegments [Segment.lit t] cs = if cs = t then some [] else none := by
  unfold matchSegments
  by_cases h : cs = t
  · subst h
    simp [matchSegments]
  · rw [if_neg h]
    by_cases hp : t.isPrefixOf cs = true
    · rw [if_pos hp]
      rw [List.isPrefixOf_iff_prefix] at hp
      obtain ⟨r, hr⟩ := hp
      have hrne : r ≠ [] := by
        intro hr0
        apply h
        rw [← hr, hr0, List.append_nil]
      subst hr
      simp [matchSegments, hrne]
    · rw [if_neg hp]

/-- A template of literal text followed by a variable matches the text followed
by a name, and binds the variable to the name. -/
theorem matchSegments_lit_var (t v : List Char) (n : String) (hv : v ≠ [])
    (hslash : '/' ∉ v) :
    matchSegments [Segment.lit t, Segment.var n] (t ++ v) = some [(n, String.mk v)] := by
  have htake : v.takeWhile (fun c => c != '/') = v := by
    rw [List.takeWhile_eq_self_iff]
    intro c hc
    have hne : c ≠ '/' := fun e => hslash (e ▸ hc)
    simpa using hne
  have hdrop : v.dropWhile (fun c => c != '/') = [] := by
    rw [List.dropWhile_eq_nil_iff]
    intro c hc
    have hne : c ≠ '/' := fun e => hslash (e ▸ hc)
    simpa using hne
  have hp : t.isPrefixOf (t ++ v) = true := by
    rw [List.isPrefixOf_iff_prefix]
    exact List.prefix_append t v
  unfold matchSegments
  rw [if_pos hp, List.drop_left]
  unfold matchSegments
  rw [htake, hdrop]
  simp [hv, matchSegments]

/-- What a path matched by a template of literal text followed by a variable
looks like. -/
theorem matchSegments_lit_var_inv (t cs : List Char) (n : String)
    (vars : List (String × String))
    (h : matchSegments [Segment.lit t, Segment.var n] cs = some vars) :
    ∃ v, cs = t ++ v ∧ vars = [(n, String.mk v)] := by
  unfold matchSegments at h
  by_cases hp : t.isPrefixOf cs = true
  · rw [if_pos hp] at h
    rw [List.isPrefixOf_iff_prefix] at hp
    obtain ⟨r, hr⟩ := hp
    subst hr
    rw [List.drop_left] at h
    unfold matchSegments at h
    by_cases htake : r.takeWhile (fun c => c != '/') = []
    · simp [htake] at h
    · rw [if_neg htake] at h
      by_cases hdrop : r.dropWhile (fun c => c != '/') = []
      · have hr : r.takeWhile (fun c => c != '/') = r := by
          have := List.takeWhile_append_dropWhile (fun c => c != '/') r
          rw [hdrop, List.append_nil] at this
          exact this
        rw [hdrop, hr] at h
        simp only [matchSegments, if_true, Option.some.injEq] at h
        exact ⟨r, rfl, h.symm⟩
      · simp [matchSegments, hdrop] at h
  · simp [hp] at h

theorem template_find :
    parseTemplate ("/dogs" ++ "/find").toList none [] = [Segment.lit "/dogs/find".toList] := by
  decide

theorem template_get :
    parseTemplate ("/dogs" ++ "/\x7bdogID\x7d").toList none [] =
      [Segment.lit "/dogs/".toList, Segment.var "dogID"] := by
  decide

theorem template_create :
    parseTemplate ("/dogs" ++ "").toList none [] = [Segment.lit "/dogs".toList] := by
  decide

/-- The search through the routes of `routes.go`, route by route. -/
theorem matchRoutes_dogs (method path : String) :
    matchRoutes "/dogs" Http.routes method path false =
      if path.toList = "/dogs/find".toList then
        (if "GET" = method then Routed.handler Handler.handleFindDog []
          else matchRoutes "/dogs" Http.routes.tail method path true)
      else
        match matchSegments [Segment.lit "/dogs/".toList, Segment.var "dogID"] path.toList with
        | some vars =>
          if "GET" = method then Routed.handler Handler.handleGetDog vars
          else matchRoutes "/dogs" Http.routes.tail.tail method path true
        | none => matchRoutes "/dogs" Http.routes.tail.tail method path false := by
  by_cases hfind : path.toList = "/dogs/find".toList
  · rw [if_pos hfind]
    simp only [Http.routes, matchRoutes, template_find, matchSegments_lit, hfind, if_true,
      List.tail_cons]
  · rw [if_neg hfind]
    simp only [Http.routes, matchRoutes, template_find, template_get, matchSegments_lit, hfind,
      if_false, List.tail_cons]
    cases matchSegments [Segment.lit "/dogs/".toList, Segment.var "dogID"] path.toList <;> rfl

/-- The last route, `POST /dogs`, never hands a request to the get handler. -/
theorem matchRoutes_last (method path : String) (mismatch : Bool)
    (vars : List (String × String)) :
    matchRoutes "/dogs" Http.routes.tail.tail method path mismatch ≠
      Routed.handler Handler.handleGetDog vars := by
  simp only [Http.routes, List.tail_cons, matchRoutes, template_create, matchSegments_lit]
  split
  · split <;> simp
  · split
    · simp
    · split <;> simp

/-- A request that the router hands to the get handler came in under the method
GET on a path `/dogs/v` other than `/dogs/find`, and `dogID` is bound to `v`. -/
theorem matchRoutes_get_inv (method path : String) (vars : List (String × String))
    (h : matchRoutes "/dogs" Http.routes method path false =
      Routed.handler Handler.handleGetDog vars) :
    ∃ v : List Char, vars = [("dogID", String.mk v)] ∧ String.mk v ≠ "find" ∧
      path.toList = "/dogs/".toList ++ v ∧ method = "GET" := by
  rw [matchRoutes_dogs] at h
  by_cases hfind : path.toList = "/dogs/find".toList
  · rw [if_pos hfind] at h
    by_cases hm : "GET" = method
    · simp [hm] at h
    · rw [if_neg hm] at h
      exfalso
      simp only [Http.routes, List.tail_cons, matchRoutes, template_get, hm, if_false] at h
      split at h
      · exact matchRoutes_last method path true vars (by simpa [Http.routes, matchRoutes] using h)
      · exact matchRoutes_last method path true vars (by simpa [Http.routes, matchRoutes] using h)
  · rw [if_neg hfind] at h
    cases hseg : matchSegments [Segment.lit "/dogs/".toList, Segment.var "dogID"]
        path.toList with
    | none =>
      rw [hseg] at h
      exact absurd h (matchRoutes_last method path false vars)
    | some found =>
      rw [hseg] at h
      by_cases hm : "GET" = method
      · simp only [hm, if_true, Routed.handler.injEq, true_and] at h
        obtain ⟨v, hpath, hvars⟩ := matchSegments_lit_var_inv _ _ _ _ hseg
        refine ⟨v, ?_, ?_, hpath, hm.symm⟩
        · rw [← h, hvars]
        · intro hv
          apply hfind
          rw [hpath]
          have hvl : v = "find".toList := by
            have := congrArg String.toList hv
            simpa using this
          rw [hvl]
          rfl
      · simp only [hm, if_false] at h
        exact absurd h (matchRoutes_last method path true vars)

/-- The get handler calls the service with the value of the route variable
`dogID` and with nothing else. -/
theorem handleGetDog_calls (db : Firestore) (env : Env) (w : ResponseWriter) (r : Request)
    (call : Call) (h : call ∈ (Http.handleGetDog db env w r).calls) :
    ∃ dogID, r.vars.lookup "dogID" = some dogID ∧ call = Call.GetDogByID dogID := by
  unfold Http.handleGetDog at h
  cases hv : r.vars.lookup "dogID" with
  | none => simp [hv] at h
  | some dogID =>
    simp only [hv] at h
    refine ⟨dogID, rfl, ?_⟩
    split at h
    · split at h <;> simpa using h
    · simpa using h

/-- The find handler makes no call to `GetDogByID`. -/
theorem handleFindDog_calls (db : Firestore) (env : Env) (w : ResponseWriter) (r : Request)
    (call : Call) (h : call ∈ (Http.handleFindDog db env w r).calls) :
    ∃ dogType, call = Call.FindDogByType dogType := by
  unfold Http.handleFindDog at h
  simp only [] at h
  split at h
  · simp at h
  · split at h <;> exact ⟨_, by simpa using h⟩

/-- The create handler makes no call to `GetDogByID`. -/
theorem handleCreateDog_calls (db : Firestore) (env : Env) (w : ResponseWriter) (r : Request)
    (call : Call) (h : call ∈ (Http.handleCreateDog db env w r).calls) :
    ∃ request, call = Call.CreateDog request := by
  simp only [Http.handleCreateDog] at h
  split at h
  · simp at h
  · split at h <;> exact ⟨_, by simpa using h⟩

theorem cmd_handleGetDog_eq (db : Firestore) (env : Env) (w : ResponseWriter) (r : Request) :
    Cmd.handleGetDog db env w r = Http.handleGetDog db env w r := by
  have hrespond : ∀ (w0 : ResponseWriter) (data : Option Payload) (status : Nat),
      Cmd.respond w0 data status = Http.respond w0 data status := fun _ _ _ => rfl
  unfold Cmd.handleGetDog Http.handleGetDog
  simp only [hrespond]

theorem cmd_handleFindDog_eq (db : Firestore) (env : Env) (w : ResponseWriter) (r : Request) :
    Cmd.handleFindDog db env w r = Http.handleFindDog db env w r := by
  have hrespond : ∀ (w0 : ResponseWriter) (data : Option Payload) (status : Nat),
      Cmd.respond w0 data status = Http.respond w0 data status := fun _ _ _ => rfl
  unfold Cmd.handleFindDog Http.handleFindDog
  simp only [hrespond]

theorem cmd_handleCreateDog_eq (db : Firestore) (env : Env) (w : ResponseWriter)
    (r : Request) : Cmd.handleCreateDog db env w r = Http.handleCreateDog db env w r := by
  have hrespond : ∀ (w0 : ResponseWriter) (data : Option Payload) (status : Nat),
      Cmd.respond w0 data status = Http.respond w0 data status := fun _ _ _ => rfl
  unfold Cmd.handleCreateDog Http.handleCreateDog Cmd.decode Http.decode
  simp only [hrespond]

/-- The two servers serve every request alike. -/
theorem cmd_serveHTTP_eq (db : Firestore) (env : Env) (w : ResponseWriter)
    (req : HttpRequest) : Cmd.ServeHTTP db env w req = Http.ServeHTTP db env w req := by
  unfold Cmd.ServeHTTP Http.ServeHTTP
  have hroutes : Cmd.routes = Http.routes := rfl
  rw [hroutes]
  split <;> simp only [cmd_handleGetDog_eq, cmd_handleFindDog_eq, cmd_handleCreateDog_eq]

/-- A request in canonical form is matched against the routes. -/
theorem routeRequest_clean (req : HttpRequest) (h : cleanPath req.path = req.path) :
    routeRequest "/dogs" Http.routes req =
      matchRoutes "/dogs" Http.routes req.method req.path false := by
  unfold routeRequest
  simp [h]

/-- Whatever the request, the server does not call `GetDogByID` with the
identifier `find`. -/
theorem serveHTTP_never_find (db : Firestore) (env : Env) (w : ResponseWriter)
    (req : HttpRequest) : Call.GetDogByID "find" ∉ (Http.ServeHTTP db env w req).calls := by
  intro hcall
  unfold Http.ServeHTTP at hcall
  split at hcall
  · simp at hcall
  · obtain ⟨_, h⟩ := handleFindDog_calls _ _ _ _ _ hcall
    simp at h
  · rename_i vars hroute
    obtain ⟨dogID, hvar, h⟩ := handleGetDog_calls _ _ _ _ _ hcall
    simp only [Call.GetDogByID.injEq] at h
    subst h
    have hmatch : matchRoutes "/dogs" Http.routes req.method req.path false =
        Routed.handler Handler.handleGetDog vars := by
      unfold routeRequest at hroute
      split at hroute
      · simp at hroute
      · exact hroute
    obtain ⟨v, hvars, hne, _, _⟩ := matchRoutes_get_inv _ _ _ hmatch
    rw [hvars] at hvar
    simp only [List.lookup, beq_self_eq_true, Option.some.injEq] at hvar
    exact hne hvar
  · obtain ⟨_, h⟩ := handleCreateDog_calls _ _ _ _ _ hcall
    simp at h
  · simp at hcall
  · simp at hcall

/-- The router's decision for `GET /dogs/find`. -/
theorem routeRequest_find (req : HttpRequest) (hm : req.method = "GET")
    (hp : req.path = "/dogs/find") :
    routeRequest "/dogs" Http.routes req = Routed.handler Handler.handleFindDog [] := by
  have hclean : cleanPath req.path = req.path := by
    rw [hp]
    decide
  rw [routeRequest_clean req hclean, matchRoutes_dogs, hm, hp]
  simp

/-- The router's decision for `GET /dogs/x`, `x` a proper name other than `find`. -/
theorem routeRequest_get (req : HttpRequest) (x : String) (hm : req.method = "GET")
    (hp : req.path = "/dogs/" ++ x) (hne : x ≠ "") (hslash : '/' ∉ x.toList)
    (hfind : x ≠ "find") (hdot : x ≠ ".") (hdots : x ≠ "..") :
    routeRequest "/dogs" Http.routes req =
      Routed.handler Handler.handleGetDog [("dogID", x)] := by
  have hclean : cleanPath req.path = req.path := by
    rw [hp]
    exact cleanPath_dogs x hne hslash hdot hdots
  have hx0 : x.toList ≠ [] := fun h => hne (String.ext h)
  have hlist : req.path.toList = "/dogs/".toList ++ x.toList := by
    rw [hp]
    simp [String.toList, String.data_append]
  have hnot : req.path.toList ≠ "/dogs/find".toList := by
    rw [hlist]
    intro h
    have h2 : x.toList = "find".toList := by
      have h3 : "/dogs/find".toList = "/dogs/".toList ++ "find".toList := by decide
      rw [h3] at h
      exact List.append_cancel_left h
    exact hfind (String.ext h2)
  rw [routeRequest_clean req hclean, matchRoutes_dogs, if_neg hnot, hlist,
    matchSegments_lit_var _ _ _ hx0 hslash, hm]
  simp

/-- The header set last is the one a lookup finds. -/
theorem lookup_setHeader (w : ResponseWriter) (key value : String) :
    (w.setHeader key value).header.lookup key = some value := by
  unfold ResponseWriter.setHeader
  simp only []
  induction w.header with
  | nil => simp [List.lookup]
  | cons kv rest ih =>
    by_cases hk : kv.1 = key
    · simp only [List.filter_cons, hk, bne_self_eq_false, Bool.false_eq_true, if_false]
      exact ih
    · have hne : (kv.1 != key) = true := by simpa using hk
      have hbeq : (key == kv.1) = false := by simpa using fun h => hk h.symm
      simp only [List.filter_cons, hne, if_true, List.cons_append]
      rw [show kv = (kv.1, kv.2) from rfl, List.lookup_cons, hbeq]
      exact ih

/-- A request whose path is not in canonical form is answered by the router
itself: status 301, the header `Location` set to the canonical path followed by
the query string, the store untouched and no call to the service. -/
theorem serveHTTP_redirect (db : Firestore) (env : Env) (w : ResponseWriter)
    (req : HttpRequest) (hdirty : cleanPath req.path ≠ req.path) :
    routeRequest "/dogs" Http.routes req =
      Routed.redirect
        (cleanPath req.path ++ (if req.rawQuery = "" then "" else "?" ++ req.rawQuery)) ∧
    Http.ServeHTTP db env w req =
      ⟨(w.setHeader "Location"
        (cleanPath req.path ++ (if req.rawQuery = "" then "" else "?" ++ req.rawQuery))).WriteHeader
          StatusMovedPermanently, db, []⟩ := by
  have hroute : routeRequest "/dogs" Http.routes req =
      Routed.redirect
        (cleanPath req.path ++ (if req.rawQuery = "" then "" else "?" ++ req.rawQuery)) := by
    unfold routeRequest
    rw [if_pos hdirty]
  refine ⟨hroute, ?_⟩
  unfold Http.ServeHTTP
  rw [hroute]

/-- The response written for a redirect to a writer nothing was written to:
status 301, the location among the headers sent, no body. -/
theorem redirect_response (w : ResponseWriter) (location : String)
    (hw : w.wroteHeader = false) :
    ((w.setHeader "Location" location).WriteHeader StatusMovedPermanently).status = 301 ∧
    ((w.setHeader "Location" location).WriteHeader StatusMovedPermanently).sent.lookup
      "Location" = some location ∧
    ((w.setHeader "Location" location).WriteHeader StatusMovedPermanently).body = w.body := by
  have hset : (w.setHeader "Location" location).wroteHeader = false := hw
  have hlook := lookup_setHeader w "Location" location
  refine ⟨?_, ?_, ?_⟩
  · simp [ResponseWriter.WriteHeader, ResponseWriter.status, hset, StatusMovedPermanently]
  · simp only [ResponseWriter.WriteHeader, hset, Bool.false_eq_true, if_false]
    exact hlook
  · simp [ResponseWriter.WriteHeader, hw, ResponseWriter.setHeader]

/-- C16 as amended: route precedence.  `/find` is registered before the
variable route, so every `GET /dogs/find`, with or without a query, is served by
the find handler; no request whatever makes the server call `GetDogByID` with
the identifier `find`; and every `GET /dogs/x` in which `x` is a proper name
(not empty, without slash, other than `find`, `.` and `..`) is served by the get
handler with `dogID` bound to `x`.  A path `/dogs/.` or `/dogs/..` is not in
canonical form: the router's decision is a redirect, not a handler; the server
answers with status 301 and the header `Location` set to the cleaned path
(`/dogs` and `/`, followed by the query string if there is one), writes no body,
leaves the store untouched and calls nothing.  The same holds of both servers. -/
theorem routes_precedence (db : Firestore) (env : Env) (w : ResponseWriter) :
    (∀ req : HttpRequest, req.method = "GET" → req.path = "/dogs/find" →
      Http.ServeHTTP db env w req = Http.handleFindDog db env w ⟨[], req.query, req.body⟩ ∧
      Cmd.ServeHTTP db env w req = Cmd.handleFindDog db env w ⟨[], req.query, req.body⟩) ∧
    (∀ req : HttpRequest,
      Call.GetDogByID "find" ∉ (Http.ServeHTTP db env w req).calls ∧
      Call.GetDogByID "find" ∉ (Cmd.ServeHTTP db env w req).calls) ∧
    (∀ (req : HttpRequest) (x : String), req.method = "GET" → req.path = "/dogs/" ++ x →
      x ≠ "" → '/' ∉ x.toList → x ≠ "find" → x ≠ "." → x ≠ ".." →
      Http.ServeHTTP db env w req =
        Http.handleGetDog db env w ⟨[("dogID", x)], req.query, req.body⟩ ∧
      Cmd.ServeHTTP db env w req =
        Cmd.handleGetDog db env w ⟨[("dogID", x)], req.query, req.body⟩) ∧
    (∀ (req : HttpRequest) (x : String), req.path = "/dogs/" ++ x → (x = "." ∨ x = "..") →
      (Http.ServeHTTP db env w req).calls = [] ∧ (Cmd.ServeHTTP db env w req).calls = []) ∧
    (∀ (req : HttpRequest) (x cleaned : String), req.path = "/dogs/" ++ x →
      ((x = "." ∧ cleaned = "/dogs") ∨ (x = ".." ∧ cleaned = "/")) →
      routeRequest "/dogs" Http.routes req =
        Routed.redirect (cleaned ++ (if req.rawQuery = "" then "" else "?" ++ req.rawQuery)) ∧
      routeRequest "/dogs" Cmd.routes req =
        Routed.redirect (cleaned ++ (if req.rawQuery = "" then "" else "?" ++ req.rawQuery)) ∧
      Http.ServeHTTP db env w req =
        ⟨(w.setHeader "Location"
          (cleaned ++ (if req.rawQuery = "" then "" else "?" ++ req.rawQuery))).WriteHeader
            StatusMovedPermanently, db, []⟩ ∧
      Cmd.ServeHTTP db env w req = Http.ServeHTTP db env w req ∧
      (w.wroteHeader = false →
        (Http.ServeHTTP db env w req).w.status = 301 ∧
        (Http.ServeHTTP db env w req).w.sent.lookup "Location" =
          some (cleaned ++ (if req.rawQuery = "" then "" else "?" ++ req.rawQuery)) ∧
        (Http.ServeHTTP db env w req).w.body = w.body ∧
        (Cmd.ServeHTTP db env w req).w.status = 301 ∧
        (Cmd.ServeHTTP db env w req).w.sent.lookup "Location" =
          some (cleaned ++ (if req.rawQuery = "" then "" else "?" ++ req.rawQuery)) ∧
        (Cmd.ServeHTTP db env w req).w.body = w.body)) := by
  refine ⟨?_, ?_, ?_, ?_, ?_⟩
  · intro req hm hp
    have hserve : Http.ServeHTTP db env w req =
        Http.handleFindDog db env w ⟨[], req.query, req.body⟩ := by
      unfold Http.ServeHTTP
      rw [routeRequest_find req hm hp]
    exact ⟨hserve, by rw [cmd_serveHTTP_eq, hserve, cmd_handleFindDog_eq]⟩
  · intro req
    have h := serveHTTP_never_find db env w req
    exact ⟨h, by rw [cmd_serveHTTP_eq]; exact h⟩
  · intro req x hm hp hne hslash hfind hdot hdots
    have hserve : Http.ServeHTTP db env w req =
        Http.handleGetDog db env w ⟨[("dogID", x)], req.query, req.body⟩ := by
      unfold Http.ServeHTTP
      rw [routeRequest_get req x hm hp hne hslash hfind hdot hdots]
    exact ⟨hserve, by rw [cmd_serveHTTP_eq, hserve, cmd_handleGetDog_eq]⟩
  · intro req x hp hx
    have hdirty : cleanPath req.path ≠ req.path := by
      rw [hp]
      rcases hx with h | h <;> subst h <;> decide
    have hserve : (Http.ServeHTTP db env w req).calls = [] := by
      rw [(serveHTTP_redirect db env w req hdirty).2]
    exact ⟨hserve, by rw [cmd_serveHTTP_eq, hserve]⟩
  · intro req x cleaned hp hx
    have hclean : cleanPath req.path = cleaned := by
      rw [hp]
      rcases hx with ⟨h1, h2⟩ | ⟨h1, h2⟩ <;> subst h1 <;> subst h2 <;> decide
    have hdirty : cleanPath req.path ≠ req.path := by
      rw [hp]
      rcases hx with ⟨h1, _⟩ | ⟨h1, _⟩ <;> subst h1 <;> decide
    obtain ⟨hroute, hserve⟩ := serveHTTP_redirect db env w req hdirty
    rw [hclean] at hroute hserve
    have hcmd : Cmd.ServeHTTP db env w req = Http.ServeHTTP db env w req :=
      cmd_serveHTTP_eq db env w req
    refine ⟨hroute, hroute, hserve, hcmd, ?_⟩
    intro hw
    obtain ⟨hs, hl, hb⟩ := redirect_response w
      (cleaned ++ (if req.rawQuery = "" then "" else "?" ++ req.rawQuery)) hw
    rw [hcmd, hserve]
    exact ⟨hs, hl, hb, hs, hl, hb⟩

/-- C16 as stated fails at the single-segment path `/dogs/.`: the router
redirects `GET /dogs/.` to `/dogs` with status 301 instead of handing it to the
get handler with `dogID` bound to `.`, and no call reaches the service. -/
theorem dot_segment_redirected :
    routeRequest "/dogs" Http.routes (httpGet "/dogs/.") = Routed.redirect "/dogs" ∧
    routeRequest "/dogs" Cmd.routes (httpGet "/dogs/.") = Routed.redirect "/dogs" ∧
    Http.ServeHTTP oscarStore calm ResponseWriter.fresh (httpGet "/dogs/.") ≠
      Http.handleGetDog oscarStore calm ResponseWriter.fresh (getRequest ".") ∧
    (Http.ServeHTTP oscarStore calm ResponseWriter.fresh (httpGet "/dogs/.")).w.status = 301 ∧
    (Http.ServeHTTP oscarStore calm ResponseWriter.fresh (httpGet "/dogs/.")).calls = [] ∧
    (Http.handleGetDog oscarStore calm ResponseWriter.fresh (getRequest ".")).calls =
      [Call.GetDogByID "."] ∧
    routeRequest "/dogs" Http.routes (httpGet "/dogs/..") = Routed.redirect "/" ∧
    Http.ServeHTTP oscarStore calm ResponseWriter.fresh (httpGet "/dogs/..") ≠
      Http.handleGetDog oscarStore calm ResponseWriter.fresh (getRequest "..") ∧
    (Http.ServeHTTP oscarStore calm ResponseWriter.fresh (httpGet "/dogs/..")).w.status = 301 ∧
    (Cmd.ServeHTTP oscarStore calm ResponseWriter.fresh (httpGet "/dogs/.")).w.status = 301 := by
  refine ⟨?_, ?_, ?_, ?_, ?_, ?_, ?_, ?_, ?_, ?_⟩ <;> decide

/-! ## Properties of the JSON encoding -/

/-- Text made of ordinary characters is encoded as itself between quotes. -/
theorem jsonString_plain (s : String)
    (h : ∀ c ∈ s.toList, 32 ≤ c.toNat ∧ c ≠ '"' ∧ c ≠ '\\' ∧ c ≠ '<' ∧ c ≠ '>' ∧ c ≠ '&' ∧
      c.toNat ≠ 8232 ∧ c.toNat ≠ 8233) :
    jsonString s = "\"" ++ s ++ "\"" := by
  have hesc : ∀ l : List Char,
      (∀ c ∈ l, 32 ≤ c.toNat ∧ c ≠ '"' ∧ c ≠ '\\' ∧ c ≠ '<' ∧ c ≠ '>' ∧ c ≠ '&' ∧
        c.toNat ≠ 8232 ∧ c.toNat ≠ 8233) →
      (String.join (l.map jsonEscape)).data = l := by
    intro l
    induction l with
    | nil => intro _; rfl
    | cons c rest ih =>
      intro hl
      obtain ⟨h32, hq, hb, hlt, hgt, hamp, h28, h29⟩ := hl c (List.mem_cons_self _ _)
      have hrest := ih (fun d hd => hl d (List.mem_cons_of_mem _ hd))
      have hn : c ≠ '\n' := by
        intro e
        rw [e] at h32
        exact absurd h32 (by decide)
      have hr : c ≠ '\r' := by
        intro e
        rw [e] at h32
        exact absurd h32 (by decide)
      have ht : c ≠ '\t' := by
        intro e
        rw [e] at h32
        exact absurd h32 (by decide)
      have hc : jsonEscape c = String.mk [c] := by
        unfold jsonEscape
        simp [hq, hb, hn, hr, ht, hlt, hgt, hamp, h28, h29, Nat.not_lt.mpr h32]
      have hdata : (String.join ((c :: rest).map jsonEscape)).data =
          (jsonEscape c).data ++ (String.join (rest.map jsonEscape)).data := by
        simp [String.data_join]
      rw [hdata, hrest, hc]
      rfl
  apply String.ext
  simp only [jsonString, String.data_append]
  rw [hesc s.toList h]
  rfl

theorem routes_precedence_witness :
    Http.ServeHTTP oscarStore calm ResponseWriter.fresh
        ⟨"GET", "/dogs/find", "type=Poodle", [("type", "Poodle")], Body.invalid "EOF"⟩ =
      Http.handleFindDog oscarStore calm ResponseWriter.fresh
        ⟨[], [("type", "Poodle")], Body.invalid "EOF"⟩ ∧
    Http.ServeHTTP oscarStore calm ResponseWriter.fresh (httpGet "/dogs/999") =
      Http.handleGetDog oscarStore calm ResponseWriter.fresh
        ⟨[("dogID", "999")], [], Body.invalid "EOF"⟩ :=
  ⟨((routes_precedence oscarStore calm ResponseWriter.fresh).1
      ⟨"GET", "/dogs/find", "type=Poodle", [("type", "Poodle")], Body.invalid "EOF"⟩
      rfl rfl).1,
    ((routes_precedence oscarStore calm ResponseWriter.fresh).2.2.1 (httpGet "/dogs/999") "999"
      rfl rfl (by decide) (by decide) (by decide) (by decide) (by decide)).1⟩

end Gotoproduction
